import Mathlib

/-!
Verification of the MongoDB IDL compiler subsystem against its natural-language
specification.  The development shallowly embeds, in Lean, the two components the
claims are about:

* the IDL compatibility checker (`buildscripts/idl/idl_check_compatibility.py`):
  the recursive structural diff between an old and a new command schema, with its
  error accumulation (`IDLCompatibilityContext`) and its two fatal `sys.exit(1)`
  points; and
* the runtime behaviour of the code emitted by the IDL code generator
  (`buildscripts/idl/idl/generator.py`): the field-usage checkers (set-based and
  bitset-based), the field/array deserializer loops, and the serializer's
  required-field invariant.

Python machine integers do not overflow in any modelled code path, strings are
modelled as Lean `String`, Python `set` operations on lists are modelled through
list membership (`∈`), and file-path arguments of error records (pure reporting
plumbing, never branched on) are omitted from the error payloads.
-/

/-! ## Compatibility checker: data model

`syntax.Field`, `syntax.Struct`, `syntax.Type` / `syntax.VariantType` and
`syntax.Enum`, restricted to the attributes the compatibility checker reads.
A `VariantType` is a `Type` subclass in the source; it is modelled by the
`isVariant` flag together with `variantTypes` / `variantStructType`.
-/

/-- `syntax.Field` as read by the compatibility checker: wire name, declared
type name (resolved through the symbol table), `optional`, `unstable`, and the
validator (modelled as an opaque string; the checker only compares validators
for equality). -/
structure CField where
  name : String
  typeName : String
  optional : Bool
  unstable : Bool
  validator : Option String
deriving DecidableEq, Repr

/-- `syntax.Struct` as read by the compatibility checker: name and ordered
field list. -/
structure CStruct where
  name : String
  fields : List CField
deriving DecidableEq, Repr

/-- `syntax.Type` / `syntax.VariantType`: name, `bson_serialization_type` list,
optional `cpp_type`, and — when `isVariant` — the variant alternatives and the
optional struct alternative. -/
inductive CType where
  | mk : String → List String → Option String → Bool → List CType → Option CStruct → CType

def CType.name : CType → String
  | .mk n _ _ _ _ _ => n

def CType.bst : CType → List String
  | .mk _ b _ _ _ _ => b

def CType.cppType : CType → Option String
  | .mk _ _ c _ _ _ => c

def CType.isVariant : CType → Bool
  | .mk _ _ _ v _ _ => v

def CType.variantTypes : CType → List CType
  | .mk _ _ _ _ ts _ => ts

def CType.variantStructType : CType → Option CStruct
  | .mk _ _ _ _ _ s => s

/-- The result of resolving a field's type name:
`Union[syntax.Enum, syntax.Struct, syntax.Type]`. -/
inductive ResolvedType where
  | type (t : CType)
  | enum (name : String) (values : List String)
  | struct (s : CStruct)

/-- The `.name` of a resolved type node. -/
def ResolvedType.rname : ResolvedType → String
  | .type t => t.name
  | .enum n _ => n
  | .struct s => s.name

/-- An IDL file's symbol table, as consulted by `get_field_type`. -/
structure IdlFile where
  types : List (String × ResolvedType)

/-- Modelled from the spec: `resolve(field_or_command, declared_type_name) ->
Type | Enum | Struct | null` — the Resolver (`idl/syntax.py`'s
`resolve_field_type`, not among the provided sources) maps a declared type name
to its resolved node through the file's flat symbol table, returning null when
the name does not resolve.  `get_field_type` in
`idl_check_compatibility.py` wraps exactly this resolution. -/
def get_field_type (f : CField) (file : IdlFile) : Option ResolvedType :=
  (file.types.find? (fun p => p.1 == f.typeName)).map (fun p => p.2)

/-- The fixed allow-list permitting the `any` bson serialization type,
`ALLOW_ANY_TYPE_LIST` in `idl_check_compatibility.py`. -/
def ALLOW_ANY_TYPE_LIST : List String := [
    "commandAllowedAnyTypes", "commandAllowedAnyTypes-param-anyTypeParam",
    "commandAllowedAnyTypes-reply-anyTypeField", "oldTypeBsonAnyAllowList",
    "newTypeBsonAnyAllowList",
    "oldReplyFieldTypeBsonAnyAllowList-reply-oldBsonSerializationTypeAnyReplyField",
    "newReplyFieldTypeBsonAnyAllowList-reply-newBsonSerializationTypeAnyReplyField",
    "oldParamTypeBsonAnyAllowList-param-bsonTypeAnyParam",
    "newParamTypeBsonAnyAllowList-param-bsonTypeAnyParam",
    "commandAllowedAnyTypesWithVariant-reply-anyTypeField",
    "replyFieldTypeBsonAnyWithVariant-reply-bsonSerializationTypeAnyReplyField",
    "replyFieldCppTypeNotEqual-reply-cppTypeNotEqualReplyField", "commandCppTypeNotEqual",
    "commandParameterCppTypeNotEqual-param-cppTypeNotEqualParam"]

/-- The typed incompatibility errors of `IDLCompatibilityContext`.  Each
constructor corresponds to one `add_*_error` method; the payload keeps the
semantic arguments (command, field/parameter/type names, parameter flag) and
drops the file-path argument. -/
inductive CompatErr where
  | commandOrParamTypeInvalid (cmd : String) (param : Option String) (isParam : Bool)
  | newTypeEnumOrStruct (cmd newName oldName : String) (param : Option String) (isParam : Bool)
  | oldTypeBsonAny (cmd typeName : String) (param : Option String) (isParam : Bool)
  | newTypeBsonAny (cmd typeName : String) (param : Option String) (isParam : Bool)
  | typeBsonAnyNotAllowed (cmd typeName : String) (param : Option String) (isParam : Bool)
  | cppTypeNotEqual (cmd typeName : String) (param : Option String) (isParam : Bool)
  | notVariantType (cmd typeName : String) (param : Option String) (isParam : Bool)
  | variantTypeNotSuperset (cmd typeName : String) (param : Option String) (isParam : Bool)
  | typeNotSuperset (cmd typeName : String) (param : Option String) (isParam : Bool)
  | typeNotEnum (cmd newName oldName : String) (param : Option String) (isParam : Bool)
  | typeNotStruct (cmd newName oldName : String) (param : Option String) (isParam : Bool)
  | fieldUnstable (cmd fieldName : String) (typeName : Option String) (isParam : Bool)
  | fieldStableRequired (cmd fieldName : String) (typeName : Option String) (isParam : Bool)
  | fieldRequired (cmd fieldName : String) (typeName : Option String) (isParam : Bool)
  | validatorsNotEqual (cmd fieldName : String) (typeName : Option String) (isParam : Bool)
  | containsValidator (cmd fieldName : String) (typeName : Option String) (isParam : Bool)
  | fieldMissing (cmd fieldName structName : String) (isParam : Bool)
  | fieldAddedRequired (cmd fieldName structName : String) (isParam : Bool)
  | replyFieldTypeInvalid (cmd fieldName : String)
  | replyNewTypeEnumOrStruct (cmd fieldName newName oldName : String)
  | replyOldBsonAny (cmd fieldName typeName : String)
  | replyNewBsonAny (cmd fieldName typeName : String)
  | replyBsonAnyNotAllowed (cmd fieldName typeName : String)
  | replyCppTypeNotEqual (cmd fieldName typeName : String)
  | replyVariantNotSubset (cmd fieldName typeName : String)
  | replyVariantType (cmd fieldName typeName : String)
  | replyNotSubset (cmd fieldName typeName : String)
  | replyNotEnum (cmd fieldName newName oldName : String)
  | replyNotStruct (cmd fieldName newName oldName : String)
  | replyFieldUnstable (cmd fieldName : String)
  | replyFieldOptional (cmd fieldName : String)
  | replyValidatorsNotEqual (cmd fieldName : String)
  | replyContainsValidator (cmd fieldName : String)
  | replyFieldMissing (cmd fieldName : String)
deriving DecidableEq, Repr

/-- The outcome of a checking function: `ok errs` continues with the
accumulated error collection, `exited errs` models the two
`dump_errors(); sys.exit(1)` points, and `fuelOut` marks recursion fuel
exhaustion (never reached on the acyclic schemas of actual runs). -/
inductive CheckOut where
  | ok (errs : List CompatErr)
  | exited (errs : List CompatErr)
  | fuelOut
deriving DecidableEq, Repr

/-- Sequencing of checking steps: an exit aborts everything downstream. -/
def CheckOut.seq (r : CheckOut) (f : List CompatErr → CheckOut) : CheckOut :=
  match r with
  | .ok errs => f errs
  | .exited errs => .exited errs
  | .fuelOut => .fuelOut

/-- `check_subset`: error added when `sub_list` is not a subset of
`super_list` (Python compares with `set(...).issubset`). -/
def check_subset (errs : List CompatErr) (cmd fieldName typeName : String)
    (subList superList : List String) : List CompatErr :=
  if ¬ (∀ x ∈ subList, x ∈ superList) then
    errs ++ [.replyNotSubset cmd fieldName typeName]
  else errs

/-- `check_superset`: error added when `super_list` is not a superset of
`sub_list`. -/
def check_superset (errs : List CompatErr) (cmd typeName : String)
    (superList subList : List String) (param : Option String) (isParam : Bool) :
    List CompatErr :=
  if ¬ (∀ x ∈ subList, x ∈ superList) then
    errs ++ [.typeNotSuperset cmd typeName param isParam]
  else errs

/-- `check_param_or_type_validator`: flag a new/changed validator. -/
def check_param_or_type_validator (errs : List CompatErr) (oldF newF : CField)
    (cmd : String) (typeName : Option String) (isParam : Bool) : List CompatErr :=
  errs ++
    (match newF.validator, oldF.validator with
     | some nv, some ov =>
        if nv ≠ ov then [.validatorsNotEqual cmd newF.name typeName isParam] else []
     | some _, none => [.containsValidator cmd newF.name typeName isParam]
     | none, _ => [])

/-- The reply-side unstable/optional/validator checks at the head of
`check_reply_field` (before type resolution). -/
def reply_field_pre_errors (errs : List CompatErr) (oldF newF : CField)
    (cmd : String) : List CompatErr :=
  ((errs ++ (if newF.unstable then [.replyFieldUnstable cmd newF.name] else []))
    ++ (if newF.optional ∧ ¬ oldF.optional then [.replyFieldOptional cmd newF.name] else []))
    ++ (match newF.validator, oldF.validator with
        | some nv, some ov =>
            if nv ≠ ov then [.replyValidatorsNotEqual cmd newF.name] else []
        | some _, none => [.replyContainsValidator cmd newF.name]
        | none, _ => [])

/-- The parameter-side unstable/stable-required/required checks at the head of
`check_command_param_or_type_struct_field`. -/
def param_field_pre_errors (errs : List CompatErr) (oldF newF : CField)
    (cmd : String) (typeName : Option String) (isParam : Bool) : List CompatErr :=
  ((errs ++ (if ¬ oldF.unstable ∧ newF.unstable then
              [.fieldUnstable cmd oldF.name typeName isParam] else []))
    ++ (if oldF.unstable ∧ ¬ newF.optional ∧ ¬ newF.unstable then
          [.fieldStableRequired cmd oldF.name typeName isParam] else []))
    ++ (if oldF.optional ∧ ¬ newF.optional then
          [.fieldRequired cmd oldF.name typeName isParam] else [])

/-- The inner `for new_field in ... if new_field.name == old_field.name: ...;
break` search shared by both struct-walking loops. -/
def findField (fields : List CField) (nm : String) : Option CField :=
  fields.find? (fun f => f.name == nm)

/-- The second loop of `check_command_params_or_type_struct_fields`: a field of
the new struct absent by name from the old struct must be optional or
unstable. -/
def new_fields_added_errors (cmd : String) (oldS newS : CStruct) (isParam : Bool) :
    List CompatErr :=
  (newS.fields.filter
      (fun nf => oldS.fields.all (fun of => of.name != nf.name)
        && !nf.optional && !nf.unstable)).map
    (fun nf => .fieldAddedRequired cmd nf.name newS.name isParam)

mutual

/-- `check_reply_field_type_recursive` (old type already known to be a
`syntax.Type`). -/
def check_reply_field_type_recursive (fuel : Nat) (errs : List CompatErr)
    (oldT : CType) (newRT : ResolvedType) (cmd fieldName : String)
    (oldFile newFile : IdlFile) : CheckOut :=
  match fuel with
  | 0 => .fuelOut
  | fuel + 1 =>
    match newRT with
    | .enum nm _ =>
        .ok (errs ++ [.replyNewTypeEnumOrStruct cmd fieldName nm oldT.name])
    | .struct st =>
        .ok (errs ++ [.replyNewTypeEnumOrStruct cmd fieldName st.name oldT.name])
    | .type newT =>
      if "any" ∈ oldT.bst ∧ "any" ∉ newT.bst then
        .ok (errs ++ [.replyOldBsonAny cmd fieldName oldT.name])
      else if "any" ∉ oldT.bst ∧ "any" ∈ newT.bst then
        .ok (errs ++ [.replyNewBsonAny cmd fieldName oldT.name])
      else
        if "any" ∈ oldT.bst ∧ (cmd ++ "-reply-" ++ fieldName) ∉ ALLOW_ANY_TYPE_LIST then
          .ok (errs ++ [.replyBsonAnyNotAllowed cmd fieldName oldT.name])
        else
          let errs1 := errs ++
            (if "any" ∈ oldT.bst ∧ oldT.cppType ≠ newT.cppType then
              [.replyCppTypeNotEqual cmd fieldName newT.name] else [])
          if oldT.isVariant then
            (check_reply_variant_loop fuel errs1
                (if newT.isVariant then newT.variantTypes else [newT])
                oldT.variantTypes cmd fieldName oldFile newFile).seq
              (fun errs2 =>
                if newT.isVariant then
                  match newT.variantStructType with
                  | some ns =>
                    match oldT.variantStructType with
                    | some os =>
                        check_reply_fields fuel errs2 os ns cmd oldFile newFile
                    | none =>
                        .ok (errs2 ++ [.replyVariantNotSubset cmd fieldName ns.name])
                  | none => .ok errs2
                else .ok errs2)
          else
            if newT.isVariant then
              .ok (errs1 ++ [.replyVariantType cmd fieldName oldT.name])
            else
              .ok (check_subset errs1 cmd fieldName newT.name newT.bst oldT.bst)

/-- The `for new_variant_type in new_variant_types: ... for old_variant_type
in old_variant_types: ...` loop of `check_reply_field_type_recursive`. -/
def check_reply_variant_loop (fuel : Nat) (errs : List CompatErr)
    (newVTs oldVTs : List CType) (cmd fieldName : String)
    (oldFile newFile : IdlFile) : CheckOut :=
  match fuel with
  | 0 => .fuelOut
  | fuel + 1 =>
    match newVTs with
    | [] => .ok errs
    | nv :: rest =>
      let step : CheckOut :=
        match oldVTs.find? (fun ov => ov.name == nv.name) with
        | some ov =>
            check_reply_field_type_recursive fuel errs ov (.type nv) cmd fieldName
              oldFile newFile
        | none =>
            .ok (errs ++ [.replyVariantNotSubset cmd fieldName nv.name])
      step.seq
        (fun errs2 =>
          check_reply_variant_loop fuel errs2 rest oldVTs cmd fieldName oldFile newFile)

/-- `check_reply_field_type`: dispatch on the resolved old type; a failed
resolution on either side dumps and `sys.exit(1)`s. -/
def check_reply_field_type (fuel : Nat) (errs : List CompatErr)
    (oldRT newRT : Option ResolvedType) (cmd fieldName : String)
    (oldFile newFile : IdlFile) : CheckOut :=
  match fuel with
  | 0 => .fuelOut
  | fuel + 1 =>
    match oldRT with
    | none => .exited (errs ++ [.replyFieldTypeInvalid cmd fieldName])
    | some oldR =>
      match newRT with
      | none => .exited (errs ++ [.replyFieldTypeInvalid cmd fieldName])
      | some newR =>
        match oldR with
        | .type t =>
            check_reply_field_type_recursive fuel errs t newR cmd fieldName
              oldFile newFile
        | .enum nm vals =>
          match newR with
          | .enum nm2 vals2 =>
              .ok (check_subset errs cmd fieldName nm2 vals2 vals)
          | r => .ok (errs ++ [.replyNotEnum cmd fieldName r.rname nm])
        | .struct st =>
          match newR with
          | .struct st2 => check_reply_fields fuel errs st st2 cmd oldFile newFile
          | r => .ok (errs ++ [.replyNotStruct cmd fieldName r.rname st.name])

/-- `check_reply_field`: unstable/optional/validator checks, then type
resolution and the type check. -/
def check_reply_field (fuel : Nat) (errs : List CompatErr) (oldF newF : CField)
    (cmd : String) (oldFile newFile : IdlFile) : CheckOut :=
  match fuel with
  | 0 => .fuelOut
  | fuel + 1 =>
    check_reply_field_type fuel (reply_field_pre_errors errs oldF newF cmd)
      (get_field_type oldF oldFile) (get_field_type newF newFile) cmd oldF.name
      oldFile newFile

/-- The old-field loop of `check_reply_fields` (unstable old fields are
skipped; an old field missing from the new reply is an error). -/
def check_reply_fields_loop (fuel : Nat) (errs : List CompatErr)
    (oldFields : List CField) (newS : CStruct) (cmd : String)
    (oldFile newFile : IdlFile) : CheckOut :=
  match fuel with
  | 0 => .fuelOut
  | fuel + 1 =>
    match oldFields with
    | [] => .ok errs
    | oldF :: rest =>
      let step : CheckOut :=
        if oldF.unstable then .ok errs
        else
          match findField newS.fields oldF.name with
          | some newF => check_reply_field fuel errs oldF newF cmd oldFile newFile
          | none => .ok (errs ++ [.replyFieldMissing cmd oldF.name])
      step.seq
        (fun errs2 =>
          check_reply_fields_loop fuel errs2 rest newS cmd oldFile newFile)

/-- `check_reply_fields`. -/
def check_reply_fields (fuel : Nat) (errs : List CompatErr) (oldS newS : CStruct)
    (cmd : String) (oldFile newFile : IdlFile) : CheckOut :=
  match fuel with
  | 0 => .fuelOut
  | fuel + 1 =>
    check_reply_fields_loop fuel errs oldS.fields newS cmd oldFile newFile

/-- `check_param_or_command_type_recursive` (old type already known to be a
`syntax.Type`). -/
def check_param_or_command_type_recursive (fuel : Nat) (errs : List CompatErr)
    (oldT : CType) (newRT : ResolvedType) (cmd : String) (oldFile newFile : IdlFile)
    (param : Option String) (isParam : Bool) : CheckOut :=
  match fuel with
  | 0 => .fuelOut
  | fuel + 1 =>
    match newRT with
    | .enum nm _ =>
        .ok (errs ++ [.newTypeEnumOrStruct cmd nm oldT.name param isParam])
    | .struct st =>
        .ok (errs ++ [.newTypeEnumOrStruct cmd st.name oldT.name param isParam])
    | .type newT =>
      if "any" ∈ oldT.bst ∧ "any" ∉ newT.bst then
        .ok (errs ++ [.oldTypeBsonAny cmd oldT.name param isParam])
      else if "any" ∉ oldT.bst ∧ "any" ∈ newT.bst then
        .ok (errs ++ [.newTypeBsonAny cmd newT.name param isParam])
      else
        if "any" ∈ oldT.bst ∧
            (if isParam then cmd ++ "-param-" ++ param.getD "" else cmd)
              ∉ ALLOW_ANY_TYPE_LIST then
          .ok (errs ++ [.typeBsonAnyNotAllowed cmd oldT.name param isParam])
        else
          let errs1 := errs ++
            (if "any" ∈ oldT.bst ∧ oldT.cppType ≠ newT.cppType then
              [.cppTypeNotEqual cmd newT.name param isParam] else [])
          if oldT.isVariant then
            if ¬ newT.isVariant then
              .ok (errs1 ++ [.notVariantType cmd newT.name param isParam])
            else
              (check_param_variant_loop fuel errs1 oldT.variantTypes
                  newT.variantTypes cmd oldFile newFile param isParam).seq
                (fun errs2 =>
                  match oldT.variantStructType with
                  | some os =>
                    match newT.variantStructType with
                    | some ns =>
                        check_command_params_or_type_struct_fields fuel errs2 os ns
                          cmd oldFile newFile isParam
                    | none =>
                        .ok (errs2 ++ [.variantTypeNotSuperset cmd os.name param isParam])
                  | none => .ok errs2)
          else
            .ok (check_superset errs1 cmd newT.name newT.bst oldT.bst param isParam)

/-- The `for old_variant_type in old_variant_types: ... for new_variant_type
in new_variant_types: ...` loop of `check_param_or_command_type_recursive`. -/
def check_param_variant_loop (fuel : Nat) (errs : List CompatErr)
    (oldVTs newVTs : List CType) (cmd : String) (oldFile newFile : IdlFile)
    (param : Option String) (isParam : Bool) : CheckOut :=
  match fuel with
  | 0 => .fuelOut
  | fuel + 1 =>
    match oldVTs with
    | [] => .ok errs
    | ov :: rest =>
      let step : CheckOut :=
        match newVTs.find? (fun nv => nv.name == ov.name) with
        | some nv =>
            check_param_or_command_type_recursive fuel errs ov (.type nv) cmd
              oldFile newFile param isParam
        | none =>
            .ok (errs ++ [.variantTypeNotSuperset cmd ov.name param isParam])
      step.seq
        (fun errs2 =>
          check_param_variant_loop fuel errs2 rest newVTs cmd oldFile newFile
            param isParam)

/-- `check_param_or_command_type`: dispatch on the resolved old type; a failed
resolution on either side dumps and `sys.exit(1)`s. -/
def check_param_or_command_type (fuel : Nat) (errs : List CompatErr)
    (oldRT newRT : Option ResolvedType) (cmd : String) (oldFile newFile : IdlFile)
    (param : Option String) (isParam : Bool) : CheckOut :=
  match fuel with
  | 0 => .fuelOut
  | fuel + 1 =>
    match oldRT with
    | none => .exited (errs ++ [.commandOrParamTypeInvalid cmd param isParam])
    | some oldR =>
      match newRT with
      | none => .exited (errs ++ [.commandOrParamTypeInvalid cmd param isParam])
      | some newR =>
        match oldR with
        | .type t =>
            check_param_or_command_type_recursive fuel errs t newR cmd oldFile
              newFile param isParam
        | .enum nm vals =>
          match newR with
          | .enum nm2 vals2 =>
              .ok (check_superset errs cmd nm2 vals2 vals param isParam)
          | r => .ok (errs ++ [.typeNotEnum cmd r.rname nm param isParam])
        | .struct st =>
          match newR with
          | .struct st2 =>
              check_command_params_or_type_struct_fields fuel errs st st2 cmd
                oldFile newFile isParam
          | r => .ok (errs ++ [.typeNotStruct cmd r.rname st.name param isParam])

/-- `check_command_param_or_type_struct_field`: restrictiveness checks,
validator check, then type resolution and the recursive type check. -/
def check_command_param_or_type_struct_field (fuel : Nat) (errs : List CompatErr)
    (oldF newF : CField) (cmd : String) (oldFile newFile : IdlFile)
    (typeName : Option String) (isParam : Bool) : CheckOut :=
  match fuel with
  | 0 => .fuelOut
  | fuel + 1 =>
    check_param_or_command_type fuel
      (check_param_or_type_validator
        (param_field_pre_errors errs oldF newF cmd typeName isParam)
        oldF newF cmd typeName isParam)
      (get_field_type oldF oldFile) (get_field_type newF newFile) cmd oldFile
      newFile (some oldF.name) isParam

/-- The old-field loop of `check_command_params_or_type_struct_fields` (an old
field missing from the new struct is an error unless it was unstable). -/
def check_old_params_loop (fuel : Nat) (errs : List CompatErr)
    (oldFields : List CField) (newS : CStruct) (cmd : String)
    (oldFile newFile : IdlFile) (oldStructName : String) (isParam : Bool) :
    CheckOut :=
  match fuel with
  | 0 => .fuelOut
  | fuel + 1 =>
    match oldFields with
    | [] => .ok errs
    | oldF :: rest =>
      let step : CheckOut :=
        match findField newS.fields oldF.name with
        | some newF =>
            check_command_param_or_type_struct_field fuel errs oldF newF cmd oldFile
              newFile (some oldStructName) isParam
        | none =>
            .ok (errs ++
              (if ¬ oldF.unstable then
                [.fieldMissing cmd oldF.name oldStructName isParam] else []))
      step.seq
        (fun errs2 =>
          check_old_params_loop fuel errs2 rest newS cmd oldFile newFile
            oldStructName isParam)

/-- `check_command_params_or_type_struct_fields`: walk the old fields, then
flag newly added non-optional non-unstable fields. -/
def check_command_params_or_type_struct_fields (fuel : Nat) (errs : List CompatErr)
    (oldS newS : CStruct) (cmd : String) (oldFile newFile : IdlFile)
    (isParam : Bool) : CheckOut :=
  match fuel with
  | 0 => .fuelOut
  | fuel + 1 =>
    (check_old_params_loop fuel errs oldS.fields newS cmd oldFile newFile
        oldS.name isParam).seq
      (fun errs2 => .ok (errs2 ++ new_fields_added_errors cmd oldS newS isParam))

end

/-! ## Code generator: runtime model of the emitted deserializers/serializers

The generator (`idl/generator.py`) emits C++ text; the claims are about the
behaviour of that emitted code.  The definitions below transcribe, element by
element, the control flow the generator writes out in
`_gen_fields_deserializer_common`, `_gen_array_deserializer`,
`_SlowFieldUsageChecker`, `_FastFieldUsageChecker`,
`gen_op_msg_request_deserializer_methods` and
`_gen_serializer_methods_common`.  Custom per-value deserializers (out-of-scope
wire-library callbacks) are abstracted to an opaque numeric payload carried by
each wire element. -/

/-- `ast.Field` as read by the generator: the attributes steering the emitted
deserializer/serializer control flow. -/
structure GField where
  name : String
  bsonTypes : List String
  optional : Bool
  ignore : Bool
  default : Option String
  chained : Bool
  chained_struct_field : Bool
  array : Bool
  supports_doc_sequence : Bool
  serialize_op_msg_request_only : Bool
deriving DecidableEq, Repr

/-- `ast.Struct` as read by the generator. -/
structure GStruct where
  name : String
  strict : Bool
  fields : List GField
deriving DecidableEq, Repr

/-- `_is_required_serializer_field`: not ignored, not optional, no default,
not chained, no chained struct field. -/
def is_required_serializer_field (f : GField) : Bool :=
  !f.ignore && !f.optional && f.default.isNone && !f.chained && !f.chained_struct_field

/-- The bson type check `_get_bson_type_check` compiles to: no check for a
single `any`/`chain` type, an exact tag check for one type, a set check for
several (`checkAndAssertTypes`); the emitted `checkAndAssert*` calls throw on
mismatch. -/
def typeMatches (f : GField) (btype : String) : Bool :=
  match f.bsonTypes with
  | [t] => if t = "any" ∨ t = "chain" then true else btype = t
  | ts => ts.contains btype

/-- Modelled from the spec: the generated array deserializer parses each wire
key with `NumberParser{}` (`mongo/base/parse_number`, not among the provided
sources); per the spec an array element key is accepted as a number exactly
when it is "the literal decimal string" of the sequence number.  A key is
therefore represented pre-parsed: `num n` is the literal decimal string of
`n`, `nonNum s` any other string. -/
inductive ArrKey where
  | num (n : Nat)
  | nonNum (s : String)
deriving DecidableEq, Repr

/-- One element of a wire-encoded array object: parsed key, wire type tag, and
the opaque payload the element deserializes to. -/
structure ArrElem where
  key : ArrKey
  btype : String
  payload : Nat
deriving DecidableEq, Repr

/-- Decode-time errors thrown by generated code: `throwDuplicateField`,
`throwUnknownField`, `throwMissingField`, the type-mismatch throw of
`checkAndAssertType(s)`, `throwBadArrayFieldNumberSequence` and
`throwBadArrayFieldNumberValue`. -/
inductive DecodeErr where
  | duplicateField (name : String)
  | unknownField (name : String)
  | missingField (name : String)
  | typeMismatch (name : String)
  | badArrayFieldNumberSequence (got expected : Nat)
  | badArrayFieldNumberValue (key : String)
deriving DecidableEq, Repr

/-- The loop body of `_gen_array_deserializer`: keys must be the consecutive
sequence numbers starting at `expected`; a numeric key off the sequence throws
`BadArrayFieldNumberSequence`, a non-numeric key throws
`BadArrayFieldNumberValue`, and each accepted element is type-checked and its
payload appended in order. -/
def arrayElemsLoop (f : GField) (expected : Nat) :
    List ArrElem → Except DecodeErr (List Nat)
  | [] => .ok []
  | a :: rest =>
    match a.key with
    | .num k =>
      if k ≠ expected then .error (.badArrayFieldNumberSequence k expected)
      else if typeMatches f a.btype then
        match arrayElemsLoop f (expected + 1) rest with
        | .ok vs => .ok (a.payload :: vs)
        | .error e => .error e
      else .error (.typeMismatch f.name)
    | .nonNum s => .error (.badArrayFieldNumberValue s)

/-- `_gen_array_deserializer`: run the element loop with
`expectedFieldNumber` starting at 0. -/
def gen_array_deserializer (f : GField) (arr : List ArrElem) :
    Except DecodeErr (List Nat) :=
  arrayElemsLoop f 0 arr

/-- One element of a wire-encoded document: field name, wire type tag, opaque
scalar payload, and — when the matched field is an array — the nested array
elements. -/
structure DElem where
  name : String
  btype : String
  payload : Nat
  arr : List ArrElem
deriving DecidableEq, Repr

/-- A decoded field value: a scalar payload, an array of payloads, or the
field's default applied by `add_final_checks`. -/
inductive GenValue where
  | scalar (payload : Nat)
  | arrayV (vals : List Nat)
  | defaulted (d : String)
deriving DecidableEq, Repr

/-- The emitted if/else-if dispatch chain matches the element name against
each field constant, in declaration order, skipping fields with
`field.chained and not field.chained_struct_field`. -/
def dispatchField (fields : List GField) (nm : String) : Option GField :=
  (fields.filter (fun f => !(f.chained && !f.chained_struct_field))).find?
    (fun f => f.name == nm)

/-- The fields the generated dispatch chain covers (the checkers' `_fields`
list, populated by the generation-time `add` calls, in declaration order). -/
def dispatchFields (s : GStruct) : List GField :=
  s.fields.filter (fun f => !(f.chained && !f.chained_struct_field))

/-- The fields that receive a bit in `_FastFieldUsageChecker.__init__`
(sequential `bit_id` over the non-chained fields). -/
def nonChainedFields (s : GStruct) : List GField :=
  s.fields.filter (fun f => !f.chained)

/-- The bit index (`k...Bit` constant) of the field with wire name `nm`: its
position among the non-chained fields. -/
def bitOfName (s : GStruct) (nm : String) : Nat :=
  (nonChainedFields s).findIdx (fun f => f.name == nm)

/-- `_FastFieldUsageChecker.add`: throw `DuplicateField` if the field's bit is
already set, else set it. -/
def fastAdd (s : GStruct) (bits : List Nat) (nm : String) :
    Except DecodeErr (List Nat) :=
  if bitOfName s nm ∈ bits then .error (.duplicateField nm)
  else .ok (bits ++ [bitOfName s nm])

/-- The document loop of `_gen_fields_deserializer_common` for a plain struct
compiled with the set-based `_SlowFieldUsageChecker`: `add_store` inserts every
element name into `usedFields` and throws `DuplicateField` on a repeated
insertion; then the dispatch chain runs (type check throwing on mismatch,
ignore fields consumed, arrays delegated to the array deserializer), and an
unmatched name throws `UnknownField` exactly when the struct is strict. -/
def slowLoop (s : GStruct) :
    List String → List (String × GenValue) → List DElem →
    Except DecodeErr (List String × List (String × GenValue))
  | used, acc, [] => .ok (used, acc)
  | used, acc, el :: rest =>
    if el.name ∈ used then .error (.duplicateField el.name)
    else
      match dispatchField s.fields el.name with
      | some f =>
        if f.ignore then slowLoop s (used ++ [el.name]) acc rest
        else if f.array then
          match gen_array_deserializer f el.arr with
          | .ok vs => slowLoop s (used ++ [el.name]) (acc ++ [(f.name, .arrayV vs)]) rest
          | .error e => .error e
        else if typeMatches f el.btype then
          slowLoop s (used ++ [el.name]) (acc ++ [(f.name, .scalar el.payload)]) rest
        else .error (.typeMismatch el.name)
      | none =>
        if s.strict then .error (.unknownField el.name)
        else slowLoop s (used ++ [el.name]) acc rest

/-- The document loop of `_gen_fields_deserializer_common` for a plain struct
compiled with the bitset-based `_FastFieldUsageChecker`: `add_store` is a
no-op; each matched field's branch performs the already-set-bit duplicate
check (`add`), placed after the type check for plain fields and before the
array deserializer for array fields. -/
def fastLoop (s : GStruct) :
    List Nat → List (String × GenValue) → List DElem →
    Except DecodeErr (List Nat × List (String × GenValue))
  | bits, acc, [] => .ok (bits, acc)
  | bits, acc, el :: rest =>
    match dispatchField s.fields el.name with
    | some f =>
      if f.ignore then
        match fastAdd s bits el.name with
        | .ok bits2 => fastLoop s bits2 acc rest
        | .error e => .error e
      else if f.array then
        match fastAdd s bits el.name with
        | .ok bits2 =>
          match gen_array_deserializer f el.arr with
          | .ok vs => fastLoop s bits2 (acc ++ [(f.name, .arrayV vs)]) rest
          | .error e => .error e
        | .error e => .error e
      else if typeMatches f el.btype then
        match fastAdd s bits el.name with
        | .ok bits2 => fastLoop s bits2 (acc ++ [(f.name, .scalar el.payload)]) rest
        | .error e => .error e
      else .error (.typeMismatch el.name)
    | none =>
      if s.strict then .error (.unknownField el.name)
      else fastLoop s bits acc rest

/-- `_SlowFieldUsageChecker.add_final_checks`: walk the tracked fields; each
non-optional, non-ignored, non-chained field absent from `usedFields` takes its
default or throws `MissingField`. -/
def slowFinalLoop (used : List String) (acc : List (String × GenValue)) :
    List GField → Except DecodeErr (List (String × GenValue))
  | [] => .ok acc
  | f :: rest =>
    if !f.optional && !f.ignore && !f.chained then
      if f.name ∈ used then slowFinalLoop used acc rest
      else
        match f.default with
        | some d => slowFinalLoop used (acc ++ [(f.name, .defaulted d)]) rest
        | none => .error (.missingField f.name)
    else slowFinalLoop used acc rest

/-- Final checks of the set-based strategy over the dispatch-chain fields. -/
def slowFinal (s : GStruct) (used : List String) (acc : List (String × GenValue)) :
    Except DecodeErr (List (String × GenValue)) :=
  slowFinalLoop used acc (dispatchFields s)

/-- `_FastFieldUsageChecker.add_final_checks` inner loop: each non-optional,
non-ignored field with an unset bit takes its default or throws
`MissingField`. -/
def fastFinalLoop (s : GStruct) (bits : List Nat) (acc : List (String × GenValue)) :
    List GField → Except DecodeErr (List (String × GenValue))
  | [] => .ok acc
  | f :: rest =>
    if !f.optional && !f.ignore then
      if bitOfName s f.name ∈ bits then fastFinalLoop s bits acc rest
      else
        match f.default with
        | some d => fastFinalLoop s bits (acc ++ [(f.name, .defaulted d)]) rest
        | none => .error (.missingField f.name)
    else fastFinalLoop s bits acc rest

/-- `_FastFieldUsageChecker.add_final_checks`: guarded by
`!usedFields.all()`, then the per-field loop over the tracked fields. -/
def fastFinal (s : GStruct) (bits : List Nat) (acc : List (String × GenValue)) :
    Except DecodeErr (List (String × GenValue)) :=
  if (nonChainedFields s).all (fun f => bitOfName s f.name ∈ bits) then .ok acc
  else fastFinalLoop s bits acc (dispatchFields s)

/-- The full generated deserializer body for a plain (non-command) struct
under the set-based strategy: document loop, then final checks. -/
def slowRun (s : GStruct) (doc : List DElem) :
    Except DecodeErr (List (String × GenValue)) :=
  match slowLoop s [] [] doc with
  | .ok (used, acc) => slowFinal s used acc
  | .error e => .error e

/-- The full generated deserializer body for a plain (non-command) struct
under the bitset-based strategy: document loop, then final checks. -/
def fastRun (s : GStruct) (doc : List DElem) :
    Except DecodeErr (List (String × GenValue)) :=
  match fastLoop s [] [] doc with
  | .ok (bits, acc) => fastFinal s bits acc
  | .error e => .error e

/-- `_get_field_usage_checker`: strict structs use the bitset strategy, the
rest the set strategy. -/
def deserializeFields (s : GStruct) (doc : List DElem) :
    Except DecodeErr (List (String × GenValue)) :=
  if s.strict then fastRun s doc else slowRun s doc

/-- Whether one wire element passes its own per-element checks of the
generated code: it must match a dispatched field and then either be ignored,
decode as a well-formed array, or carry a matching wire type. -/
def elemAccepted (s : GStruct) (el : DElem) : Bool :=
  match dispatchField s.fields el.name with
  | none => false
  | some f =>
    if f.ignore then true
    else if f.array then
      match gen_array_deserializer f el.arr with
      | .ok _ => true
      | .error _ => false
    else typeMatches f el.btype

/-- The body-fields loop emitted for a strict `ast.Command`
(bitset checker): the first element is the command element and is skipped
(`firstFieldFound`); an unmatched name under strict mode throws
`UnknownField` only when it is not a generic argument
(`!mongo::isGenericArgument(fieldName)`), the generic-argument predicate being
supplied by the wire library. -/
def cmdFieldsLoop (s : GStruct) (isGeneric : String → Bool) :
    Bool → List Nat → List (String × GenValue) → List DElem →
    Except DecodeErr (List Nat × List (String × GenValue))
  | _, bits, acc, [] => .ok (bits, acc)
  | false, bits, acc, _ :: rest => cmdFieldsLoop s isGeneric true bits acc rest
  | true, bits, acc, el :: rest =>
    match dispatchField s.fields el.name with
    | some f =>
      if f.ignore then
        match fastAdd s bits el.name with
        | .ok bits2 => cmdFieldsLoop s isGeneric true bits2 acc rest
        | .error e => .error e
      else if f.array then
        match fastAdd s bits el.name with
        | .ok bits2 =>
          match gen_array_deserializer f el.arr with
          | .ok vs => cmdFieldsLoop s isGeneric true bits2 (acc ++ [(f.name, .arrayV vs)]) rest
          | .error e => .error e
        | .error e => .error e
      else if typeMatches f el.btype then
        match fastAdd s bits el.name with
        | .ok bits2 => cmdFieldsLoop s isGeneric true bits2 (acc ++ [(f.name, .scalar el.payload)]) rest
        | .error e => .error e
      else .error (.typeMismatch el.name)
    | none =>
      if s.strict then
        if ¬ isGeneric el.name then .error (.unknownField el.name)
        else cmdFieldsLoop s isGeneric true bits acc rest
      else cmdFieldsLoop s isGeneric true bits acc rest

/-- One document sequence of an `OpMsgRequest`: its name and the opaque
payload its documents decode to. -/
structure DSeqEntry where
  name : String
  payload : Nat
deriving DecidableEq, Repr

/-- The document-sequence loop of `gen_op_msg_request_deserializer_methods`
for a strict command (bitset checker, whose `add_store` is a no-op): a
sequence name is matched only against `supports_doc_sequence` fields; a
matched field passes the duplicate-bit check and stores its decoded payload;
an unmatched name under strict mode throws `UnknownField` unconditionally —
there is no generic-argument escape here. -/
def docSeqLoop (s : GStruct) :
    List Nat → List (String × GenValue) → List DSeqEntry →
    Except DecodeErr (List Nat × List (String × GenValue))
  | bits, acc, [] => .ok (bits, acc)
  | bits, acc, sq :: rest =>
    match (s.fields.filter (fun f => f.supports_doc_sequence)).find?
        (fun f => f.name == sq.name) with
    | some f =>
      match fastAdd s bits sq.name with
      | .ok bits2 => docSeqLoop s bits2 (acc ++ [(f.name, .scalar sq.payload)]) rest
      | .error e => .error e
    | none =>
      if s.strict then .error (.unknownField sq.name)
      else docSeqLoop s bits acc rest

/-- The serializer's single failure mode: the `invariant(...)` assertion over
the required fields' `_has...` flags. -/
inductive SerErr where
  | invariantFailure
deriving DecidableEq, Repr

/-- The wire names emitted by the serializer body, in declaration order,
with the source's skip rules: ignored fields, chained-struct fields, `$db`
outside OpMsgRequest serialization, and document-sequence-eligible fields
when serializing an OpMsgRequest. -/
def serializedFieldNames (s : GStruct) (isOpMsg : Bool) : List String :=
  (s.fields.filter (fun f =>
      !f.ignore && !f.chained_struct_field
        && !(f.serialize_op_msg_request_only && !isOpMsg)
        && !(f.supports_doc_sequence && isOpMsg))).map (fun f => f.name)

/-- `_gen_serializer_methods_common`: when the struct has required serializer
fields the emitted method begins with `invariant(_hasA && _hasB && ...)` over
exactly those fields, before any append; only then is the field list
serialized.  `hasSet` is the set of fields whose `_has` flag the instance has
set. -/
def gen_serializer_methods_common (s : GStruct) (hasSet : List String)
    (isOpMsg : Bool) : Except SerErr (List String) :=
  let required := s.fields.filter is_required_serializer_field
  if required.isEmpty then .ok (serializedFieldNames s isOpMsg)
  else if required.all (fun f => f.name ∈ hasSet) then
    .ok (serializedFieldNames s isOpMsg)
  else .error .invariantFailure

/-- A sample symbol table resolving `intType` to a plain wire type, used by
concrete witnesses and counterexamples. -/
def sampleFile : IdlFile :=
  ⟨[("intType", .type (CType.mk "int" ["int"] none false [] none))]⟩

/-! ## Helper lemmas -/

theorem mem_ite_singleton {α : Type} (x e : α) (c : Prop) [Decidable c] :
    (x ∈ (if c then [e] else [])) ↔ (c ∧ x = e) := by
  split <;> simp_all

theorem mem_ite_list {α : Type} (x : α) (c : Prop) [Decidable c] (l1 l2 : List α) :
    (x ∈ if c then l1 else l2) ↔ ((c ∧ x ∈ l1) ∨ (¬ c ∧ x ∈ l2)) := by
  split <;> simp_all

theorem check_superset_eq_append (errs : List CompatErr) (cmd tn : String)
    (supL subL : List String) (p : Option String) (b : Bool) :
    check_superset errs cmd tn supL subL p b
      = errs ++ (if ¬ (∀ x ∈ subL, x ∈ supL) then
          [CompatErr.typeNotSuperset cmd tn p b] else []) := by
  unfold check_superset
  split <;> simp_all

theorem check_subset_eq_append (errs : List CompatErr) (cmd fn tn : String)
    (subL supL : List String) :
    check_subset errs cmd fn tn subL supL
      = errs ++ (if ¬ (∀ x ∈ subL, x ∈ supL) then
          [CompatErr.replyNotSubset cmd fn tn] else []) := by
  unfold check_subset
  split <;> simp_all

/-! ## C1 -/

/-- C1: for same-named old/new command parameters (and the command type)
whose resolved types are plain wire types — `syntax.Type`, not enum, struct or
variant, with no `any` sentinel — the checker records a
type-not-superset error exactly when the new `bson_serialization_type` set is
not a superset of the old one's; for reply fields of plain wire types it
records a not-subset error exactly when the new set is not a subset of the old
one's.  The conclusion gives the exact error output of the two dispatch
functions, so each error appears if and only if its side condition holds. -/
theorem c1_plain_wire_types_superset_subset (n : Nat) (errs : List CompatErr)
    (oldT newT : CType) (cmd fieldName : String) (param : Option String)
    (isParam : Bool) (oldFile newFile : IdlFile)
    (hov : oldT.isVariant = false) (hnv : newT.isVariant = false)
    (hoa : "any" ∉ oldT.bst) (hna : "any" ∉ newT.bst) :
    check_param_or_command_type (n + 2) errs (some (.type oldT))
        (some (.type newT)) cmd oldFile newFile param isParam
      = .ok (errs ++
          (if ¬ (∀ x ∈ oldT.bst, x ∈ newT.bst) then
            [.typeNotSuperset cmd newT.name param isParam] else []))
    ∧ check_reply_field_type (n + 2) errs (some (.type oldT))
        (some (.type newT)) cmd fieldName oldFile newFile
      = .ok (errs ++
          (if ¬ (∀ x ∈ newT.bst, x ∈ oldT.bst) then
            [.replyNotSubset cmd fieldName newT.name] else [])) := by
  constructor
  · rw [check_param_or_command_type, check_param_or_command_type_recursive]
    by_cases h : ∃ x ∈ oldT.bst, x ∉ newT.bst <;>
      simp [hoa, hna, hov, hnv, check_superset, h]
  · rw [check_reply_field_type, check_reply_field_type_recursive]
    by_cases h : ∃ x ∈ newT.bst, x ∉ oldT.bst <;>
      simp [hoa, hna, hov, hnv, check_subset, h]

/-- C1 witness: a parameter narrowed from `{string,int}` to `{string}` gets
the not-superset error, while the same change on a reply field (a legal
narrowing) gets no error. -/
theorem c1_plain_wire_types_superset_subset_witness :
    check_param_or_command_type 2 []
        (some (.type (CType.mk "oldT" ["string", "int"] none false [] none)))
        (some (.type (CType.mk "newT" ["string"] none false [] none)))
        "cmd" ⟨[]⟩ ⟨[]⟩ (some "p") true
      = .ok [CompatErr.typeNotSuperset "cmd" "newT" (some "p") true]
    ∧ check_reply_field_type 2 []
        (some (.type (CType.mk "oldT" ["string", "int"] none false [] none)))
        (some (.type (CType.mk "newT" ["string"] none false [] none)))
        "cmd" "f" ⟨[]⟩ ⟨[]⟩
      = .ok [] := by
  have h := c1_plain_wire_types_superset_subset 0 []
    (CType.mk "oldT" ["string", "int"] none false [] none)
    (CType.mk "newT" ["string"] none false [] none) "cmd" "f" (some "p") true
    ⟨[]⟩ ⟨[]⟩ rfl rfl (by decide) (by decide)
  constructor
  · rw [h.1]
    decide
  · rw [h.2]
    decide

/-! ## C2 -/

/-- C2 counterexample: an old command-parameter struct whose first field `a`
has an unresolvable type and whose sibling `b` goes from optional to required
(which, were it processed, would record a field-required error).  The checker
exits immediately with only the type-invalid error: the field-level resolution
failure aborts the whole pass via `dump_errors(); sys.exit(1)` exactly like a
command-level one, and the sibling field `b` is never processed — contradicting
the claim that field-level failures are accumulated while sibling fields still
process. -/
theorem c2_field_type_invalid_aborts_counterexample :
    check_command_params_or_type_struct_fields 6 []
      ⟨"S", [⟨"a", "missingType", false, false, none⟩,
             ⟨"b", "intType", true, false, none⟩]⟩
      ⟨"S", [⟨"a", "missingType", false, false, none⟩,
             ⟨"b", "intType", false, false, none⟩]⟩
      "cmd" sampleFile sampleFile true
      = .exited [.commandOrParamTypeInvalid "cmd" (some "a") true]
    ∧ CompatErr.fieldRequired "cmd" "b" (some "S") true
        ∉ [CompatErr.commandOrParamTypeInvalid "cmd" (some "a") true] := by
  constructor
  · decide
  · decide

/-- C2 (amended): when a field-level (parameter or reply-field) type name
fails to resolve, the failure is recorded as a type-invalid error and the pass
aborts immediately (errors dumped, process exit), exactly as for a missing
command-level type; the field's further checks and the remaining sibling
fields are not processed. -/
theorem c2_field_type_invalid_aborts (n : Nat) (errs : List CompatErr)
    (oldF : CField) (rest : List CField) (oldName : String) (newS : CStruct)
    (newF : CField) (cmd : String) (oldFile newFile : IdlFile)
    (hfind : findField newS.fields oldF.name = some newF)
    (hres : get_field_type oldF oldFile = none) :
    (∃ errs2, check_command_params_or_type_struct_fields (n + 4) errs
        ⟨oldName, oldF :: rest⟩ newS cmd oldFile newFile true = .exited errs2
      ∧ CompatErr.commandOrParamTypeInvalid cmd (some oldF.name) true ∈ errs2)
  ∧ (oldF.unstable = false →
      ∃ errs2, check_reply_fields (n + 4) errs ⟨oldName, oldF :: rest⟩ newS cmd
          oldFile newFile = .exited errs2
        ∧ CompatErr.replyFieldTypeInvalid cmd oldF.name ∈ errs2) := by
  constructor
  · refine ⟨check_param_or_type_validator
        (param_field_pre_errors errs oldF newF cmd (some oldName) true)
        oldF newF cmd (some oldName) true
        ++ [CompatErr.commandOrParamTypeInvalid cmd (some oldF.name) true], ?_, ?_⟩
    · rw [check_command_params_or_type_struct_fields, check_old_params_loop]
      simp only [hfind]
      rw [check_command_param_or_type_struct_field, check_param_or_command_type.eq_def]
      simp only [hres, CheckOut.seq]
    · exact List.mem_append_right _ (List.mem_singleton.mpr rfl)
  · intro hstable
    refine ⟨reply_field_pre_errors errs oldF newF cmd
        ++ [CompatErr.replyFieldTypeInvalid cmd oldF.name], ?_, ?_⟩
    · rw [check_reply_fields, check_reply_fields_loop]
      simp only [hstable, hfind]
      rw [check_reply_field, check_reply_field_type.eq_def]
      simp only [hres, CheckOut.seq]
      simp [hstable]
    · exact List.mem_append_right _ (List.mem_singleton.mpr rfl)

/-- C2 witness: the amended behaviour at a concrete schema whose single field
has an unresolvable type name. -/
theorem c2_field_type_invalid_aborts_witness :
    (∃ errs2, check_command_params_or_type_struct_fields 4 []
        ⟨"S", [⟨"a", "missingType", false, false, none⟩]⟩
        ⟨"S", [⟨"a", "intType", false, false, none⟩]⟩
        "cmd" sampleFile sampleFile true = .exited errs2
      ∧ CompatErr.commandOrParamTypeInvalid "cmd" (some "a") true ∈ errs2)
  ∧ (∃ errs2, check_reply_fields 4 []
        ⟨"S", [⟨"a", "missingType", false, false, none⟩]⟩
        ⟨"S", [⟨"a", "intType", false, false, none⟩]⟩
        "cmd" sampleFile sampleFile = .exited errs2
      ∧ CompatErr.replyFieldTypeInvalid "cmd" "a" ∈ errs2) := by
  have h := c2_field_type_invalid_aborts 0 [] ⟨"a", "missingType", false, false, none⟩
    [] "S" ⟨"S", [⟨"a", "intType", false, false, none⟩]⟩
    ⟨"a", "intType", false, false, none⟩ "cmd" sampleFile sampleFile
    (by decide) (by rfl)
  exact ⟨h.1, h.2 rfl⟩

/-! ## C3 -/

/-- C3 counterexample: a reply field that goes from optional (old) to required
(new), with identical plain types and no validators.  The claim says this
restriction records an error for reply fields too; the checker records
nothing (`check_reply_field` only errors when the new reply field is optional
and the old one was not — the opposite direction). -/
theorem c3_reply_optional_direction_counterexample :
    check_reply_field 5 [] ⟨"f", "intType", true, false, none⟩
      ⟨"f", "intType", false, false, none⟩ "cmd" sampleFile sampleFile
      = .ok [] := by
  decide

/-- C3 (amended): for command parameters, an optional old field becoming
required, or a stable old field marked unstable, records an error (and
less-restrictive changes record none); for reply fields the stable-to-unstable
restriction likewise records an error, but the optional direction is
reversed: a required old reply field becoming optional records the error,
while an optional old reply field becoming required records none.  Stated over
fields whose types resolve to plain wire types, as exact error-membership
equivalences. -/
theorem c3_restrictiveness_errors (n : Nat) (oldF newF : CField) (cmd : String)
    (typeName : Option String) (isParam : Bool) (oldFile newFile : IdlFile)
    (oldT newT : CType)
    (ho : get_field_type oldF oldFile = some (.type oldT))
    (hn : get_field_type newF newFile = some (.type newT))
    (hov : oldT.isVariant = false) (hnv : newT.isVariant = false)
    (hoa : "any" ∉ oldT.bst) (hna : "any" ∉ newT.bst) :
    (∃ E, check_command_param_or_type_struct_field (n + 3) [] oldF newF cmd oldFile
        newFile typeName isParam = .ok E
      ∧ (CompatErr.fieldRequired cmd oldF.name typeName isParam ∈ E
          ↔ (oldF.optional = true ∧ newF.optional = false))
      ∧ (CompatErr.fieldUnstable cmd oldF.name typeName isParam ∈ E
          ↔ (oldF.unstable = false ∧ newF.unstable = true)))
  ∧ (∃ E, check_reply_field (n + 3) [] oldF newF cmd oldFile newFile = .ok E
      ∧ (CompatErr.replyFieldOptional cmd newF.name ∈ E
          ↔ (newF.optional = true ∧ oldF.optional = false))
      ∧ (CompatErr.replyFieldUnstable cmd newF.name ∈ E ↔ newF.unstable = true)) := by
  constructor
  · refine ⟨check_superset
        (check_param_or_type_validator
          (param_field_pre_errors [] oldF newF cmd typeName isParam)
          oldF newF cmd typeName isParam)
        cmd newT.name newT.bst oldT.bst (some oldF.name) isParam, ?_, ?_, ?_⟩
    · rw [check_command_param_or_type_struct_field]
      simp only [ho, hn]
      rw [check_param_or_command_type, check_param_or_command_type_recursive]
      simp [hoa, hna, hov, hnv]
    · rcases hv1 : newF.validator with _ | nv <;> rcases hv2 : oldF.validator with _ | ov <;>
        simp [hv1, hv2, check_superset_eq_append, check_param_or_type_validator,
          param_field_pre_errors, List.mem_append, mem_ite_singleton, mem_ite_list]
    · rcases hv1 : newF.validator with _ | nv <;> rcases hv2 : oldF.validator with _ | ov <;>
        simp [hv1, hv2, check_superset_eq_append, check_param_or_type_validator,
          param_field_pre_errors, List.mem_append, mem_ite_singleton, mem_ite_list]
  · refine ⟨check_subset (reply_field_pre_errors [] oldF newF cmd) cmd oldF.name
        newT.name newT.bst oldT.bst, ?_, ?_, ?_⟩
    · rw [check_reply_field]
      simp only [ho, hn]
      rw [check_reply_field_type, check_reply_field_type_recursive]
      simp [hoa, hna, hov, hnv]
    · rcases hv1 : newF.validator with _ | nv <;> rcases hv2 : oldF.validator with _ | ov <;>
        simp [hv1, hv2, check_subset_eq_append, reply_field_pre_errors,
          List.mem_append, mem_ite_singleton, mem_ite_list]
    · rcases hv1 : newF.validator with _ | nv <;> rcases hv2 : oldF.validator with _ | ov <;>
        simp [hv1, hv2, check_subset_eq_append, reply_field_pre_errors,
          List.mem_append, mem_ite_singleton, mem_ite_list]

/-- C3 witness: the amended equivalences applied to a concrete
optional-to-required parameter/reply field pair with a plain resolvable
type. -/
theorem c3_restrictiveness_errors_witness :
    (∃ E, check_command_param_or_type_struct_field 3 []
        ⟨"f", "intType", true, false, none⟩ ⟨"f", "intType", false, false, none⟩
        "cmd" sampleFile sampleFile (some "S") true = .ok E
      ∧ (CompatErr.fieldRequired "cmd" "f" (some "S") true ∈ E
          ↔ (true = true ∧ false = false))
      ∧ (CompatErr.fieldUnstable "cmd" "f" (some "S") true ∈ E
          ↔ (false = false ∧ false = true)))
  ∧ (∃ E, check_reply_field 3 [] ⟨"f", "intType", true, false, none⟩
        ⟨"f", "intType", false, false, none⟩ "cmd" sampleFile sampleFile = .ok E
      ∧ (CompatErr.replyFieldOptional "cmd" "f" ∈ E
          ↔ (false = true ∧ true = false))
      ∧ (CompatErr.replyFieldUnstable "cmd" "f" ∈ E ↔ false = true)) := by
  exact c3_restrictiveness_errors 0 ⟨"f", "intType", true, false, none⟩
    ⟨"f", "intType", false, false, none⟩ "cmd" (some "S") true sampleFile
    sampleFile (CType.mk "int" ["int"] none false [] none)
    (CType.mk "int" ["int"] none false [] none) rfl rfl rfl rfl
    (by decide) (by decide)

/-! ## C4 -/

/-- C4: a field present in the new command-parameter (or command-type) struct
and absent by name from the old struct is reported with a
field-added-as-required error exactly when it is neither optional nor
unstable; in particular adding it with `optional: true` records no such
error.  The old-field loop's outcome is taken as a hypothesis (it walks
unrelated same-named fields and, by `hclean`, does not itself produce this
error for the added field). -/
theorem c4_field_added_required_iff (n : Nat) (errs errs1 : List CompatErr)
    (oldS newS : CStruct) (cmd : String) (oldFile newFile : IdlFile)
    (isParam : Bool) (nf : CField)
    (hmem : nf ∈ newS.fields)
    (habsent : ∀ og ∈ oldS.fields, og.name ≠ nf.name)
    (hnodup : (newS.fields.map CField.name).Nodup)
    (hloop : check_old_params_loop n errs oldS.fields newS cmd oldFile newFile
        oldS.name isParam = .ok errs1)
    (hclean : CompatErr.fieldAddedRequired cmd nf.name newS.name isParam ∉ errs1) :
    check_command_params_or_type_struct_fields (n + 1) errs oldS newS cmd oldFile
        newFile isParam
      = .ok (errs1 ++ new_fields_added_errors cmd oldS newS isParam)
    ∧ (CompatErr.fieldAddedRequired cmd nf.name newS.name isParam
          ∈ errs1 ++ new_fields_added_errors cmd oldS newS isParam
        ↔ (nf.optional = false ∧ nf.unstable = false)) := by
  constructor
  · rw [check_command_params_or_type_struct_fields]
    simp [hloop, CheckOut.seq]
  · simp only [List.mem_append, hclean, false_or]
    constructor
    · rintro h
      simp only [new_fields_added_errors, List.mem_map, List.mem_filter] at h
      obtain ⟨g, ⟨hg, hcond⟩, heq⟩ := h
      have hname : g.name = nf.name := by
        injection heq with h1 h2 h3 h4
      have hgnf : g = nf := List.inj_on_of_nodup_map hnodup hg hmem hname
      subst hgnf
      simp only [Bool.and_eq_true, Bool.not_eq_true'] at hcond
      exact ⟨hcond.1.2, hcond.2⟩
    · rintro ⟨hopt, huns⟩
      simp only [new_fields_added_errors, List.mem_map, List.mem_filter]
      refine ⟨nf, ⟨hmem, ?_⟩, rfl⟩
      simp only [Bool.and_eq_true, Bool.not_eq_true', List.all_eq_true]
      refine ⟨⟨?_, hopt⟩, huns⟩
      intro g hg
      simpa using habsent g hg

/-- C4 witness: adding a required field `p` to a previously empty parameter
struct records the field-added-as-required error. -/
theorem c4_field_added_required_iff_witness :
    check_command_params_or_type_struct_fields 2 [] ⟨"S", []⟩
        ⟨"S", [⟨"p", "intType", false, false, none⟩]⟩ "cmd" sampleFile
        sampleFile true
      = .ok ([] ++ new_fields_added_errors "cmd" ⟨"S", []⟩
          ⟨"S", [⟨"p", "intType", false, false, none⟩]⟩ true)
    ∧ (CompatErr.fieldAddedRequired "cmd" "p" "S" true
          ∈ [] ++ new_fields_added_errors "cmd" ⟨"S", []⟩
            ⟨"S", [⟨"p", "intType", false, false, none⟩]⟩ true
        ↔ (false = false ∧ false = false)) := by
  exact c4_field_added_required_iff 1 [] [] ⟨"S", []⟩
    ⟨"S", [⟨"p", "intType", false, false, none⟩]⟩ "cmd" sampleFile sampleFile
    true ⟨"p", "intType", false, false, none⟩ (by decide) (by decide)
    (by decide) (by decide) (by decide)

/-! ## C5 -/

/-- C5: the `any` sentinel handling of the recursive type checks.  (1) `any`
in the old set only: the old-bson-any error is recorded and the check returns
at once.  (2) `any` in the new set only: likewise with the new-bson-any
error.  (3) `any` in both sets with the (command, field-or-param) key off
`ALLOW_ANY_TYPE_LIST`: the not-allowed error is recorded and the check
returns.  (4) `any` in both sets with the key allow-listed (plain non-variant
types): the check proceeds and additionally records a cpp-type-not-equal error
exactly when the `cpp_type` strings differ. -/
theorem c5_any_type_handling (n : Nat) (errs : List CompatErr) (oldT newT : CType)
    (cmd fieldName : String) (param : Option String) (isParam : Bool)
    (oldFile newFile : IdlFile) :
    ("any" ∈ oldT.bst → "any" ∉ newT.bst →
      check_param_or_command_type_recursive (n + 1) errs oldT (.type newT) cmd
          oldFile newFile param isParam
        = .ok (errs ++ [.oldTypeBsonAny cmd oldT.name param isParam])
      ∧ check_reply_field_type_recursive (n + 1) errs oldT (.type newT) cmd
          fieldName oldFile newFile
        = .ok (errs ++ [.replyOldBsonAny cmd fieldName oldT.name]))
  ∧ ("any" ∉ oldT.bst → "any" ∈ newT.bst →
      check_param_or_command_type_recursive (n + 1) errs oldT (.type newT) cmd
          oldFile newFile param isParam
        = .ok (errs ++ [.newTypeBsonAny cmd newT.name param isParam])
      ∧ check_reply_field_type_recursive (n + 1) errs oldT (.type newT) cmd
          fieldName oldFile newFile
        = .ok (errs ++ [.replyNewBsonAny cmd fieldName oldT.name]))
  ∧ ("any" ∈ oldT.bst → "any" ∈ newT.bst →
      ((if isParam then cmd ++ "-param-" ++ param.getD "" else cmd)
          ∉ ALLOW_ANY_TYPE_LIST →
        check_param_or_command_type_recursive (n + 1) errs oldT (.type newT) cmd
            oldFile newFile param isParam
          = .ok (errs ++ [.typeBsonAnyNotAllowed cmd oldT.name param isParam]))
      ∧ ((cmd ++ "-reply-" ++ fieldName) ∉ ALLOW_ANY_TYPE_LIST →
        check_reply_field_type_recursive (n + 1) errs oldT (.type newT) cmd
            fieldName oldFile newFile
          = .ok (errs ++ [.replyBsonAnyNotAllowed cmd fieldName oldT.name])))
  ∧ ("any" ∈ oldT.bst → "any" ∈ newT.bst → oldT.isVariant = false →
      newT.isVariant = false →
      ((if isParam then cmd ++ "-param-" ++ param.getD "" else cmd)
          ∈ ALLOW_ANY_TYPE_LIST →
        check_param_or_command_type_recursive (n + 1) errs oldT (.type newT) cmd
            oldFile newFile param isParam
          = .ok ((errs ++
              (if oldT.cppType ≠ newT.cppType then
                [.cppTypeNotEqual cmd newT.name param isParam] else []))
            ++ (if ¬ (∀ x ∈ oldT.bst, x ∈ newT.bst) then
                [.typeNotSuperset cmd newT.name param isParam] else [])))
      ∧ ((cmd ++ "-reply-" ++ fieldName) ∈ ALLOW_ANY_TYPE_LIST →
        check_reply_field_type_recursive (n + 1) errs oldT (.type newT) cmd
            fieldName oldFile newFile
          = .ok ((errs ++
              (if oldT.cppType ≠ newT.cppType then
                [.replyCppTypeNotEqual cmd fieldName newT.name] else []))
            ++ (if ¬ (∀ x ∈ newT.bst, x ∈ oldT.bst) then
                [.replyNotSubset cmd fieldName newT.name] else [])))) := by
  refine ⟨?_, ?_, ?_, ?_⟩
  · intro h1 h2
    rw [check_param_or_command_type_recursive, check_reply_field_type_recursive]
    simp [h1, h2]
  · intro h1 h2
    rw [check_param_or_command_type_recursive, check_reply_field_type_recursive]
    simp [h1, h2]
  · intro h1 h2
    constructor
    · intro h3
      rw [check_param_or_command_type_recursive]
      simp [h1, h2, h3]
    · intro h3
      rw [check_reply_field_type_recursive]
      simp [h1, h2, h3]
  · intro h1 h2 hov hnv
    constructor
    · intro h3
      rw [check_param_or_command_type_recursive]
      by_cases hs : ∃ x ∈ oldT.bst, x ∉ newT.bst <;>
        by_cases hc : oldT.cppType = newT.cppType <;>
        simp [h1, h2, h3, hov, hnv, hs, hc, check_superset]
    · intro h3
      rw [check_reply_field_type_recursive]
      by_cases hs : ∃ x ∈ newT.bst, x ∉ oldT.bst <;>
        by_cases hc : oldT.cppType = newT.cppType <;>
        simp [h1, h2, h3, hov, hnv, hs, hc, check_subset]

/-- C5 witness: (1) leaving `any` records the old-bson-any error; (2) staying
at `any` off the allow-list records the not-allowed error; (3) staying at
`any` on the allow-list with different `cpp_type`s records exactly the
cpp-type-not-equal error. -/
theorem c5_any_type_handling_witness :
    check_param_or_command_type_recursive 1 []
        (CType.mk "oa" ["any"] none false [] none)
        (.type (CType.mk "nt" ["int"] none false [] none)) "c" ⟨[]⟩ ⟨[]⟩
        (some "p") true
      = .ok [CompatErr.oldTypeBsonAny "c" "oa" (some "p") true]
  ∧ check_param_or_command_type_recursive 1 []
        (CType.mk "oa" ["any"] none false [] none)
        (.type (CType.mk "nt" ["any"] none false [] none)) "c" ⟨[]⟩ ⟨[]⟩
        (some "p") true
      = .ok [CompatErr.typeBsonAnyNotAllowed "c" "oa" (some "p") true]
  ∧ check_param_or_command_type_recursive 1 []
        (CType.mk "oa" ["any"] (some "A") false [] none)
        (.type (CType.mk "nt" ["any"] (some "B") false [] none))
        "commandAllowedAnyTypes" ⟨[]⟩ ⟨[]⟩ (some "anyTypeParam") true
      = .ok [CompatErr.cppTypeNotEqual "commandAllowedAnyTypes" "nt"
          (some "anyTypeParam") true] := by
  refine ⟨?_, ?_, ?_⟩
  · have h := (c5_any_type_handling 0 [] (CType.mk "oa" ["any"] none false [] none)
      (CType.mk "nt" ["int"] none false [] none) "c" "f" (some "p") true
      ⟨[]⟩ ⟨[]⟩).1 (by decide) (by decide)
    rw [h.1]
    decide
  · have h := ((c5_any_type_handling 0 [] (CType.mk "oa" ["any"] none false [] none)
      (CType.mk "nt" ["any"] none false [] none) "c" "f" (some "p") true
      ⟨[]⟩ ⟨[]⟩).2.2.1 (by decide) (by decide)).1 (by decide)
    rw [h]
    decide
  · have h := ((c5_any_type_handling 0 []
      (CType.mk "oa" ["any"] (some "A") false [] none)
      (CType.mk "nt" ["any"] (some "B") false [] none)
      "commandAllowedAnyTypes" "f" (some "anyTypeParam") true ⟨[]⟩ ⟨[]⟩).2.2.2
      (by decide) (by decide) rfl rfl).1 (by decide)
    rw [h]
    decide

/-! ## C8 (array deserialization) -/

theorem arrayElemsLoop_ok_iff (f : GField) (elems : List ArrElem) :
    ∀ (e : Nat) (vs : List Nat), arrayElemsLoop f e elems = .ok vs ↔
      (elems.map ArrElem.key = (List.range' e elems.length).map ArrKey.num
       ∧ (∀ a ∈ elems, typeMatches f a.btype = true)
       ∧ vs = elems.map ArrElem.payload) := by
  induction elems with
  | nil =>
    intro e vs
    simp [arrayElemsLoop]
  | cons a rest ih =>
    intro e vs
    obtain ⟨k | sstr, bt, p⟩ := a
    · rw [arrayElemsLoop]
      dsimp only
      by_cases hk : k = e
      · subst hk
        rw [if_neg (by simp)]
        by_cases ht : typeMatches f bt = true
        · rw [if_pos ht]
          rcases hrec : arrayElemsLoop f (k + 1) rest with err | vs2
          · simp only [hrec]
            constructor
            · intro h
              exact absurd h (by simp)
            · rintro ⟨hkeys, htypes, hvs⟩
              exfalso
              have hkeys2 : rest.map ArrElem.key
                  = (List.range' (k + 1) rest.length).map ArrKey.num := by
                simpa [List.range'_succ] using hkeys
              have htypes2 : ∀ a ∈ rest, typeMatches f a.btype = true := by
                intro a ha
                exact htypes a (List.mem_cons_of_mem _ ha)
              have hok := (ih (k + 1) (rest.map ArrElem.payload)).mpr
                ⟨hkeys2, htypes2, rfl⟩
              rw [hrec] at hok
              exact absurd hok (by simp)
          · simp only [hrec]
            have hc := (ih (k + 1) vs2).mp hrec
            simp only [Except.ok.injEq, List.map_cons, List.length_cons,
              List.range'_succ, List.forall_mem_cons]
            constructor
            · intro h
              refine ⟨by rw [hc.1], ⟨ht, hc.2.1⟩, ?_⟩
              rw [← h, hc.2.2]
            · rintro ⟨h1, h2, h3⟩
              rw [h3, hc.2.2]
        · rw [if_neg ht]
          simp [List.range'_succ, List.forall_mem_cons, ht]
      · rw [if_pos hk]
        simp [List.range'_succ, hk]
    · rw [arrayElemsLoop]
      dsimp only
      simp [List.range'_succ]

theorem arrayElemsLoop_append (f : GField) (pre : List ArrElem) :
    ∀ (e : Nat) (suffix : List ArrElem),
      pre.map ArrElem.key = (List.range' e pre.length).map ArrKey.num →
      (∀ a ∈ pre, typeMatches f a.btype = true) →
      arrayElemsLoop f e (pre ++ suffix)
        = (arrayElemsLoop f (e + pre.length) suffix).map
            (fun vs => pre.map ArrElem.payload ++ vs) := by
  induction pre with
  | nil =>
    intro e suffix _ _
    rcases h : arrayElemsLoop f e suffix with err | vs <;>
      simp [h, Except.map]
  | cons a pre ih =>
    intro e suffix hkeys htypes
    obtain ⟨k | sstr, bt, p⟩ := a
    · have hke : k = e := by
        simpa [List.range'_succ] using congrArg (fun l => l.headD (ArrKey.num 0)) hkeys
      subst hke
      have hkeys2 : pre.map ArrElem.key
          = (List.range' (k + 1) pre.length).map ArrKey.num := by
        simpa [List.range'_succ] using hkeys
      have ht : typeMatches f bt = true := htypes _ (List.mem_cons_self _ _)
      rw [List.cons_append, arrayElemsLoop]
      dsimp only
      rw [if_neg (by simp), if_pos ht]
      have hrw := ih (k + 1) suffix hkeys2
        (fun a ha => htypes a (List.mem_cons_of_mem _ ha))
      rw [hrw, show k + 1 + pre.length = k + (pre.length + 1) by omega]
      rcases hres : arrayElemsLoop f (k + (pre.length + 1)) suffix with err | vs <;>
        simp [hres, Except.map]
    · exfalso
      have := congrArg (fun l => l.headD (ArrKey.num 0)) hkeys
      simp [List.range'_succ] at this

/-- C8: the generated array deserializer accepts exactly the wire encodings
whose element keys are the literal decimal sequence numbers 0, 1, 2, ... in
order (and whose values are well typed), producing the element payloads in
that order; the first numeric key differing from the expected next index
aborts with `BadArrayFieldNumberSequence`, and the first non-numeric key
aborts with `BadArrayFieldNumberValue`. -/
theorem c8_array_key_sequencing (f : GField) (elems pre post : List ArrElem)
    (bt : String) (p : Nat) :
    (∀ vs, gen_array_deserializer f elems = .ok vs ↔
      (elems.map ArrElem.key = (List.range elems.length).map ArrKey.num
       ∧ (∀ a ∈ elems, typeMatches f a.btype = true)
       ∧ vs = elems.map ArrElem.payload))
  ∧ (∀ k, pre.map ArrElem.key = (List.range pre.length).map ArrKey.num →
      (∀ a ∈ pre, typeMatches f a.btype = true) → k ≠ pre.length →
      gen_array_deserializer f (pre ++ ⟨.num k, bt, p⟩ :: post)
        = .error (.badArrayFieldNumberSequence k pre.length))
  ∧ (∀ sstr, pre.map ArrElem.key = (List.range pre.length).map ArrKey.num →
      (∀ a ∈ pre, typeMatches f a.btype = true) →
      gen_array_deserializer f (pre ++ ⟨.nonNum sstr, bt, p⟩ :: post)
        = .error (.badArrayFieldNumberValue sstr)) := by
  refine ⟨?_, ?_, ?_⟩
  · intro vs
    rw [gen_array_deserializer, arrayElemsLoop_ok_iff, List.range_eq_range']
  · intro k hkeys htypes hk
    rw [List.range_eq_range'] at hkeys
    rw [gen_array_deserializer, arrayElemsLoop_append f pre 0 _ hkeys htypes]
    rw [arrayElemsLoop]
    dsimp only
    rw [if_pos (by omega)]
    simp [Except.map]
  · intro sstr hkeys htypes
    rw [List.range_eq_range'] at hkeys
    rw [gen_array_deserializer, arrayElemsLoop_append f pre 0 _ hkeys htypes]
    rw [arrayElemsLoop]
    dsimp only
    simp [Except.map]

/-- C8 witness: keys "0","1","2" decode to the three payloads in order; keys
"0","2" fail with a sequence error at index 1; keys "0","0" fail with a
sequence error; a non-numeric key fails with a value error. -/
theorem c8_array_key_sequencing_witness :
    gen_array_deserializer ⟨"arr", ["int"], false, false, none, false, false,
        true, false, false⟩
      [⟨.num 0, "int", 5⟩, ⟨.num 1, "int", 7⟩, ⟨.num 2, "int", 9⟩]
      = .ok [5, 7, 9]
  ∧ gen_array_deserializer ⟨"arr", ["int"], false, false, none, false, false,
        true, false, false⟩
      ([⟨.num 0, "int", 5⟩] ++ ⟨.num 2, "int", 7⟩ :: [])
      = .error (.badArrayFieldNumberSequence 2 1)
  ∧ gen_array_deserializer ⟨"arr", ["int"], false, false, none, false, false,
        true, false, false⟩
      ([⟨.num 0, "int", 5⟩] ++ ⟨.num 0, "int", 7⟩ :: [])
      = .error (.badArrayFieldNumberSequence 0 1)
  ∧ gen_array_deserializer ⟨"arr", ["int"], false, false, none, false, false,
        true, false, false⟩
      ([⟨.num 0, "int", 5⟩] ++ ⟨.nonNum "x", "int", 7⟩ :: [])
      = .error (.badArrayFieldNumberValue "x") := by
  refine ⟨?_, ?_, ?_, ?_⟩
  · exact ((c8_array_key_sequencing _ _ [] [] "" 0).1 [5, 7, 9]).mpr
      ⟨by decide, by decide, by decide⟩
  · simpa using (c8_array_key_sequencing
      ⟨"arr", ["int"], false, false, none, false, false, true, false, false⟩
      [] [⟨.num 0, "int", 5⟩] [] "int" 7).2.1 2 (by decide) (by decide)
      (by decide)
  · simpa using (c8_array_key_sequencing
      ⟨"arr", ["int"], false, false, none, false, false, true, false, false⟩
      [] [⟨.num 0, "int", 5⟩] [] "int" 7).2.1 0 (by decide) (by decide)
      (by decide)
  · simpa using (c8_array_key_sequencing
      ⟨"arr", ["int"], false, false, none, false, false, true, false, false⟩
      [] [⟨.num 0, "int", 5⟩] [] "int" 7).2.2 "x" (by decide) (by decide)

/-! ## C6 (duplicate fields under both usage-checker strategies) -/

theorem slowLoop_dup_error (s : GStruct) (doc : List DElem) :
    ∀ (used : List String) (acc : List (String × GenValue)),
      (∀ el ∈ doc, elemAccepted s el = true) →
      used.Nodup →
      ¬ (used ++ doc.map DElem.name).Nodup →
      ∃ m, slowLoop s used acc doc = .error (.duplicateField m) := by
  induction doc with
  | nil =>
    intro used acc _ hnd hdup
    simp at hdup
    exact absurd hnd hdup
  | cons el rest ih =>
    intro used acc hacc hnd hdup
    rw [slowLoop]
    by_cases hin : el.name ∈ used
    · exact ⟨el.name, by rw [if_pos hin]⟩
    · rw [if_neg hin]
      have ha := hacc el (List.mem_cons_self _ _)
      rw [elemAccepted] at ha
      rcases hd : dispatchField s.fields el.name with _ | f
      · rw [hd] at ha
        simp at ha
      · rw [hd] at ha
        dsimp only at ha
        dsimp only
        have hnd2 : (used ++ [el.name]).Nodup := by
          simp [List.nodup_append, hnd, hin]
        have hdup2 : ¬ ((used ++ [el.name]) ++ rest.map DElem.name).Nodup := by
          simpa [List.append_assoc] using hdup
        have hacc2 : ∀ e2 ∈ rest, elemAccepted s e2 = true :=
          fun e2 he2 => hacc e2 (List.mem_cons_of_mem _ he2)
        by_cases hig : f.ignore = true
        · rw [if_pos hig]
          exact ih (used ++ [el.name]) acc hacc2 hnd2 hdup2
        · rw [if_neg hig]
          rw [if_neg hig] at ha
          by_cases har : f.array = true
          · rw [if_pos har]
            rw [if_pos har] at ha
            rcases harr : gen_array_deserializer f el.arr with err | vs
            · rw [harr] at ha
              simp at ha
            · dsimp only
              exact ih (used ++ [el.name]) _ hacc2 hnd2 hdup2
          · rw [if_neg har]
            rw [if_neg har] at ha
            rw [if_pos ha]
            exact ih (used ++ [el.name]) _ hacc2 hnd2 hdup2

theorem fastLoop_dup_error (s : GStruct) (doc : List DElem) :
    ∀ (seen : List String) (bits : List Nat) (acc : List (String × GenValue)),
      (∀ el ∈ doc, elemAccepted s el = true) →
      seen.Nodup →
      (∀ m ∈ seen, bitOfName s m ∈ bits) →
      ¬ (seen ++ doc.map DElem.name).Nodup →
      ∃ m, fastLoop s bits acc doc = .error (.duplicateField m) := by
  induction doc with
  | nil =>
    intro seen bits acc _ hnd _ hdup
    simp at hdup
    exact absurd hnd hdup
  | cons el rest ih =>
    intro seen bits acc hacc hnd hinv hdup
    rw [fastLoop]
    have ha := hacc el (List.mem_cons_self _ _)
    rw [elemAccepted] at ha
    rcases hd : dispatchField s.fields el.name with _ | f
    · rw [hd] at ha
      simp at ha
    · rw [hd] at ha
      dsimp only at ha
      dsimp only
      by_cases hbit : bitOfName s el.name ∈ bits
      · have hfa : fastAdd s bits el.name = .error (.duplicateField el.name) := by
          rw [fastAdd, if_pos hbit]
        refine ⟨el.name, ?_⟩
        by_cases hig : f.ignore = true
        · rw [if_pos hig, hfa]
        · rw [if_neg hig]
          rw [if_neg hig] at ha
          by_cases har : f.array = true
          · rw [if_pos har, hfa]
          · rw [if_neg har]
            rw [if_neg har] at ha
            rw [if_pos ha, hfa]
      · have hfa : fastAdd s bits el.name = .ok (bits ++ [bitOfName s el.name]) := by
          rw [fastAdd, if_neg hbit]
        have hin : el.name ∉ seen := fun hmem => hbit (hinv el.name hmem)
        have hnd2 : (seen ++ [el.name]).Nodup := by
          simp [List.nodup_append, hnd, hin]
        have hinv2 : ∀ m ∈ seen ++ [el.name],
            bitOfName s m ∈ bits ++ [bitOfName s el.name] := by
          intro m hm
          rcases List.mem_append.mp hm with h | h
          · exact List.mem_append_left _ (hinv m h)
          · simp at h
            subst h
            exact List.mem_append_right _ (by simp)
        have hdup2 : ¬ ((seen ++ [el.name]) ++ rest.map DElem.name).Nodup := by
          simpa [List.append_assoc] using hdup
        have hacc2 : ∀ e2 ∈ rest, elemAccepted s e2 = true :=
          fun e2 he2 => hacc e2 (List.mem_cons_of_mem _ he2)
        by_cases hig : f.ignore = true
        · rw [if_pos hig, hfa]
          exact ih _ _ _ hacc2 hnd2 hinv2 hdup2
        · rw [if_neg hig]
          rw [if_neg hig] at ha
          by_cases har : f.array = true
          · rw [if_pos har, hfa]
            rw [if_pos har] at ha
            rcases harr : gen_array_deserializer f el.arr with err | vs
            · rw [harr] at ha
              simp at ha
            · dsimp only
              exact ih _ _ _ hacc2 hnd2 hinv2 hdup2
          · rw [if_neg har]
            rw [if_neg har] at ha
            rw [if_pos ha, hfa]
            exact ih _ _ _ hacc2 hnd2 hinv2 hdup2

/-- C6: for a strict struct, a document whose (individually well-formed)
elements repeat a declared field name fails with a duplicate-field error under
both field-usage strategies — the set-based checker through its `add_store`
insertion test and the bitset-based checker through its already-set-bit test —
and hence under the checker the generator actually selects for strict structs;
the result holds for any struct and document, i.e. irrespective of where the
duplicated field sits in the declaration order. -/
theorem c6_strict_duplicate_field (s : GStruct) (doc : List DElem)
    (hstrict : s.strict = true)
    (hacc : ∀ el ∈ doc, elemAccepted s el = true)
    (hdup : ¬ (doc.map DElem.name).Nodup) :
    (∃ m, slowRun s doc = .error (.duplicateField m))
  ∧ (∃ m, fastRun s doc = .error (.duplicateField m))
  ∧ (∃ m, deserializeFields s doc = .error (.duplicateField m)) := by
  obtain ⟨m1, hm1⟩ := slowLoop_dup_error s doc [] [] hacc (by simp)
    (by simpa using hdup)
  obtain ⟨m2, hm2⟩ := fastLoop_dup_error s doc [] [] [] hacc (by simp)
    (by simp) (by simpa using hdup)
  refine ⟨⟨m1, by rw [slowRun, hm1]⟩, ⟨m2, by rw [fastRun, hm2]⟩,
    ⟨m2, ?_⟩⟩
  rw [deserializeFields, if_pos hstrict, fastRun, hm2]

/-- C6 witness: a strict one-field struct and a document carrying that field
twice fails with the duplicate-field error under both strategies. -/
theorem c6_strict_duplicate_field_witness :
    (∃ m, slowRun ⟨"S", true, [⟨"a", ["int"], false, false, none, false,
        false, false, false, false⟩]⟩
      [⟨"a", "int", 1, []⟩, ⟨"a", "int", 2, []⟩]
      = .error (.duplicateField m))
  ∧ (∃ m, fastRun ⟨"S", true, [⟨"a", ["int"], false, false, none, false,
        false, false, false, false⟩]⟩
      [⟨"a", "int", 1, []⟩, ⟨"a", "int", 2, []⟩]
      = .error (.duplicateField m))
  ∧ (∃ m, deserializeFields ⟨"S", true, [⟨"a", ["int"], false, false, none,
        false, false, false, false, false⟩]⟩
      [⟨"a", "int", 1, []⟩, ⟨"a", "int", 2, []⟩]
      = .error (.duplicateField m)) :=
  c6_strict_duplicate_field _ _ rfl (by decide) (by decide)

/-! ## C7 (missing required field / defaults) -/

theorem findIdx_name_inj (l : List GField) :
    ∀ n1 n2 : String, n1 ∈ l.map GField.name → n2 ∈ l.map GField.name →
      l.findIdx (fun f => f.name == n1) = l.findIdx (fun f => f.name == n2) →
      n1 = n2 := by
  induction l with
  | nil => simp
  | cons g t ih =>
    intro n1 n2 h1 h2 heq
    rw [List.findIdx_cons, List.findIdx_cons] at heq
    by_cases e1 : g.name = n1 <;> by_cases e2 : g.name = n2
    · rw [← e1, ← e2]
    · by_cases hnn : n1 = n2
      · exact hnn
      · rw [e1, cond_eq_if, cond_eq_if, if_pos (by simp),
          if_neg (by simp [hnn])] at heq
        omega
    · by_cases hnn : n1 = n2
      · exact hnn
      · have hnn2 : ¬ n2 = n1 := fun h => hnn h.symm
        rw [e2, cond_eq_if, cond_eq_if, if_neg (by simp [hnn2]),
          if_pos (by simp)] at heq
        omega
    · rw [cond_eq_if, cond_eq_if, if_neg (by simp [e1]),
        if_neg (by simp [e2])] at heq
      simp only [Nat.add_right_cancel_iff] at heq
      have h1t : n1 ∈ t.map GField.name := by
        rcases List.mem_map.mp h1 with ⟨gg, hgg, hnm⟩
        rcases List.mem_cons.mp hgg with rfl | hmem
        · exact absurd hnm e1
        · exact List.mem_map.mpr ⟨gg, hmem, hnm⟩
      have h2t : n2 ∈ t.map GField.name := by
        rcases List.mem_map.mp h2 with ⟨gg, hgg, hnm⟩
        rcases List.mem_cons.mp hgg with rfl | hmem
        · exact absurd hnm e2
        · exact List.mem_map.mpr ⟨gg, hmem, hnm⟩
      exact ih n1 n2 h1t h2t heq

theorem bitOfName_inj (s : GStruct) (n1 n2 : String)
    (h1 : n1 ∈ (nonChainedFields s).map GField.name)
    (h2 : n2 ∈ (nonChainedFields s).map GField.name)
    (heq : bitOfName s n1 = bitOfName s n2) : n1 = n2 :=
  findIdx_name_inj (nonChainedFields s) n1 n2 h1 h2 heq

theorem slowLoop_ok (s : GStruct) (doc : List DElem) :
    ∀ (used : List String) (acc : List (String × GenValue)),
      (∀ el ∈ doc, elemAccepted s el = true) →
      (used ++ doc.map DElem.name).Nodup →
      ∃ acc2, slowLoop s used acc doc
        = .ok (used ++ doc.map DElem.name, acc ++ acc2) := by
  induction doc with
  | nil =>
    intro used acc _ _
    exact ⟨[], by simp [slowLoop]⟩
  | cons el rest ih =>
    intro used acc hacc hnd
    have hin : el.name ∉ used := by
      intro hmem
      rw [List.nodup_append] at hnd
      exact hnd.2.2 hmem (by simp)
    rw [slowLoop, if_neg hin]
    have ha := hacc el (List.mem_cons_self _ _)
    rw [elemAccepted] at ha
    rcases hd : dispatchField s.fields el.name with _ | f
    · rw [hd] at ha
      simp at ha
    · rw [hd] at ha
      dsimp only at ha
      dsimp only
      have hnd2 : ((used ++ [el.name]) ++ rest.map DElem.name).Nodup := by
        simpa [List.append_assoc] using hnd
      have hacc2 : ∀ e2 ∈ rest, elemAccepted s e2 = true :=
        fun e2 he2 => hacc e2 (List.mem_cons_of_mem _ he2)
      by_cases hig : f.ignore = true
      · rw [if_pos hig]
        obtain ⟨acc2, h2⟩ := ih (used ++ [el.name]) acc hacc2 hnd2
        exact ⟨acc2, by rw [h2]; simp [List.append_assoc]⟩
      · rw [if_neg hig]
        rw [if_neg hig] at ha
        by_cases har : f.array = true
        · rw [if_pos har]
          rw [if_pos har] at ha
          rcases harr : gen_array_deserializer f el.arr with err | vs
          · rw [harr] at ha
            simp at ha
          · dsimp only
            obtain ⟨acc2, h2⟩ := ih (used ++ [el.name])
              (acc ++ [(f.name, .arrayV vs)]) hacc2 hnd2
            exact ⟨[(f.name, GenValue.arrayV vs)] ++ acc2, by
              rw [h2]
              simp [List.append_assoc]⟩
        · rw [if_neg har]
          rw [if_neg har] at ha
          rw [if_pos ha]
          obtain ⟨acc2, h2⟩ := ih (used ++ [el.name])
            (acc ++ [(f.name, .scalar el.payload)]) hacc2 hnd2
          exact ⟨[(f.name, GenValue.scalar el.payload)] ++ acc2, by
            rw [h2]
            simp [List.append_assoc]⟩

theorem fastLoop_ok (s : GStruct) (doc : List DElem) :
    ∀ (seen : List String) (acc : List (String × GenValue)),
      (∀ el ∈ doc, elemAccepted s el = true) →
      (∀ el ∈ doc, el.name ∈ (nonChainedFields s).map GField.name) →
      (∀ m ∈ seen, m ∈ (nonChainedFields s).map GField.name) →
      (seen ++ doc.map DElem.name).Nodup →
      ∃ acc2, fastLoop s (seen.map (bitOfName s)) acc doc
        = .ok ((seen ++ doc.map DElem.name).map (bitOfName s), acc ++ acc2) := by
  induction doc with
  | nil =>
    intro seen acc _ _ _ _
    exact ⟨[], by simp [fastLoop]⟩
  | cons el rest ih =>
    intro seen acc hacc hdecl hseen hnd
    have hin : el.name ∉ seen := by
      intro hmem
      rw [List.nodup_append] at hnd
      exact hnd.2.2 hmem (by simp)
    have hbit : bitOfName s el.name ∉ seen.map (bitOfName s) := by
      intro hmem
      rcases List.mem_map.mp hmem with ⟨m, hm, hbeq⟩
      have : m = el.name := bitOfName_inj s m el.name (hseen m hm)
        (hdecl el (List.mem_cons_self _ _)) hbeq
      subst this
      exact hin hm
    have hfa : fastAdd s (seen.map (bitOfName s)) el.name
        = .ok (seen.map (bitOfName s) ++ [bitOfName s el.name]) := by
      rw [fastAdd, if_neg hbit]
    have hrebits : seen.map (bitOfName s) ++ [bitOfName s el.name]
        = (seen ++ [el.name]).map (bitOfName s) := by
      simp
    have ha := hacc el (List.mem_cons_self _ _)
    rw [elemAccepted] at ha
    rw [fastLoop]
    rcases hd : dispatchField s.fields el.name with _ | f
    · rw [hd] at ha
      simp at ha
    · rw [hd] at ha
      dsimp only at ha
      dsimp only
      have hnd2 : ((seen ++ [el.name]) ++ rest.map DElem.name).Nodup := by
        simpa [List.append_assoc] using hnd
      have hacc2 : ∀ e2 ∈ rest, elemAccepted s e2 = true :=
        fun e2 he2 => hacc e2 (List.mem_cons_of_mem _ he2)
      have hdecl2 : ∀ e2 ∈ rest, e2.name ∈ (nonChainedFields s).map GField.name :=
        fun e2 he2 => hdecl e2 (List.mem_cons_of_mem _ he2)
      have hseen2 : ∀ m ∈ seen ++ [el.name],
          m ∈ (nonChainedFields s).map GField.name := by
        intro m hm
        rcases List.mem_append.mp hm with h | h
        · exact hseen m h
        · simp at h
          subst h
          exact hdecl el (List.mem_cons_self _ _)
      by_cases hig : f.ignore = true
      · rw [if_pos hig, hfa, hrebits]
        dsimp only
        obtain ⟨acc2, h2⟩ := ih (seen ++ [el.name]) acc hacc2 hdecl2 hseen2 hnd2
        exact ⟨acc2, by rw [h2]; simp [List.append_assoc]⟩
      · rw [if_neg hig]
        rw [if_neg hig] at ha
        by_cases har : f.array = true
        · rw [if_pos har, hfa, hrebits]
          rw [if_pos har] at ha
          rcases harr : gen_array_deserializer f el.arr with err | vs
          · rw [harr] at ha
            simp at ha
          · dsimp only
            obtain ⟨acc2, h2⟩ := ih (seen ++ [el.name])
              (acc ++ [(f.name, .arrayV vs)]) hacc2 hdecl2 hseen2 hnd2
            exact ⟨[(f.name, GenValue.arrayV vs)] ++ acc2, by
              rw [h2]
              simp [List.append_assoc]⟩
        · rw [if_neg har]
          rw [if_neg har] at ha
          rw [if_pos ha, hfa, hrebits]
          dsimp only
          obtain ⟨acc2, h2⟩ := ih (seen ++ [el.name])
            (acc ++ [(f.name, .scalar el.payload)]) hacc2 hdecl2 hseen2 hnd2
          exact ⟨[(f.name, GenValue.scalar el.payload)] ++ acc2, by
            rw [h2]
            simp [List.append_assoc]⟩

theorem slowFinalLoop_all_present (used : List String) :
    ∀ (l : List GField) (acc : List (String × GenValue)),
      (∀ g ∈ l, g.optional = true ∨ g.ignore = true ∨ g.chained = true
        ∨ g.name ∈ used) →
      slowFinalLoop used acc l = .ok acc := by
  intro l
  induction l with
  | nil =>
    intro acc _
    rw [slowFinalLoop]
  | cons g gs ih =>
    intro acc hl
    rw [slowFinalLoop]
    by_cases hc : (!g.optional && !g.ignore && !g.chained) = true
    · rw [if_pos hc]
      simp only [Bool.and_eq_true, Bool.not_eq_true'] at hc
      have hmem : g.name ∈ used := by
        rcases hl g (List.mem_cons_self _ _) with h | h | h | h
        · rw [hc.1.1] at h
          cases h
        · rw [hc.1.2] at h
          cases h
        · rw [hc.2] at h
          cases h
        · exact h
      rw [if_pos hmem]
      exact ih acc (fun g2 hg2 => hl g2 (List.mem_cons_of_mem _ hg2))
    · rw [if_neg hc]
      exact ih acc (fun g2 hg2 => hl g2 (List.mem_cons_of_mem _ hg2))

theorem slowFinalLoop_target (used : List String) (f : GField) (l2 : List GField)
    (hpost : ∀ g ∈ l2, g.optional = true ∨ g.ignore = true ∨ g.chained = true
      ∨ g.name ∈ used)
    (hfo : f.optional = false) (hfi : f.ignore = false) (hfc : f.chained = false)
    (hfu : f.name ∉ used) :
    ∀ (l1 : List GField) (acc : List (String × GenValue)),
      (∀ g ∈ l1, g.optional = true ∨ g.ignore = true ∨ g.chained = true
        ∨ g.name ∈ used) →
      (f.default = none →
        slowFinalLoop used acc (l1 ++ f :: l2) = .error (.missingField f.name))
      ∧ (∀ d, f.default = some d →
        slowFinalLoop used acc (l1 ++ f :: l2)
          = .ok (acc ++ [(f.name, .defaulted d)])) := by
  intro l1
  induction l1 with
  | nil =>
    intro acc _
    constructor
    · intro hdef
      rw [List.nil_append, slowFinalLoop,
        if_pos (by simp [hfo, hfi, hfc]), if_neg hfu, hdef]
    · intro d hdef
      rw [List.nil_append, slowFinalLoop,
        if_pos (by simp [hfo, hfi, hfc]), if_neg hfu, hdef]
      exact slowFinalLoop_all_present used l2 _ hpost
  | cons g gs ih =>
    intro acc hpre
    have hg := hpre g (List.mem_cons_self _ _)
    have hpre2 : ∀ g2 ∈ gs, g2.optional = true ∨ g2.ignore = true
        ∨ g2.chained = true ∨ g2.name ∈ used :=
      fun g2 hg2 => hpre g2 (List.mem_cons_of_mem _ hg2)
    rw [List.cons_append]
    constructor
    · intro hdef
      rw [slowFinalLoop]
      by_cases hc : (!g.optional && !g.ignore && !g.chained) = true
      · simp only [Bool.and_eq_true, Bool.not_eq_true'] at hc
        have hmem : g.name ∈ used := by
          rcases hg with h | h | h | h
          · rw [hc.1.1] at h
            cases h
          · rw [hc.1.2] at h
            cases h
          · rw [hc.2] at h
            cases h
          · exact h
        rw [if_pos (by simp [hc.1.1, hc.1.2, hc.2]), if_pos hmem]
        exact (ih acc hpre2).1 hdef
      · rw [if_neg hc]
        exact (ih acc hpre2).1 hdef
    · intro d hdef
      rw [slowFinalLoop]
      by_cases hc : (!g.optional && !g.ignore && !g.chained) = true
      · simp only [Bool.and_eq_true, Bool.not_eq_true'] at hc
        have hmem : g.name ∈ used := by
          rcases hg with h | h | h | h
          · rw [hc.1.1] at h
            cases h
          · rw [hc.1.2] at h
            cases h
          · rw [hc.2] at h
            cases h
          · exact h
        rw [if_pos (by simp [hc.1.1, hc.1.2, hc.2]), if_pos hmem]
        exact (ih acc hpre2).2 d hdef
      · rw [if_neg hc]
        exact (ih acc hpre2).2 d hdef

theorem fastFinalLoop_all_present (s : GStruct) (bits : List Nat) :
    ∀ (l : List GField) (acc : List (String × GenValue)),
      (∀ g ∈ l, g.optional = true ∨ g.ignore = true
        ∨ bitOfName s g.name ∈ bits) →
      fastFinalLoop s bits acc l = .ok acc := by
  intro l
  induction l with
  | nil =>
    intro acc _
    rw [fastFinalLoop]
  | cons g gs ih =>
    intro acc hl
    rw [fastFinalLoop]
    by_cases hc : (!g.optional && !g.ignore) = true
    · rw [if_pos hc]
      simp only [Bool.and_eq_true, Bool.not_eq_true'] at hc
      have hmem : bitOfName s g.name ∈ bits := by
        rcases hl g (List.mem_cons_self _ _) with h | h | h
        · rw [hc.1] at h
          cases h
        · rw [hc.2] at h
          cases h
        · exact h
      rw [if_pos hmem]
      exact ih acc (fun g2 hg2 => hl g2 (List.mem_cons_of_mem _ hg2))
    · rw [if_neg hc]
      exact ih acc (fun g2 hg2 => hl g2 (List.mem_cons_of_mem _ hg2))

theorem fastFinalLoop_target (s : GStruct) (bits : List Nat) (f : GField)
    (l2 : List GField)
    (hpost : ∀ g ∈ l2, g.optional = true ∨ g.ignore = true
      ∨ bitOfName s g.name ∈ bits)
    (hfo : f.optional = false) (hfi : f.ignore = false)
    (hfu : bitOfName s f.name ∉ bits) :
    ∀ (l1 : List GField) (acc : List (String × GenValue)),
      (∀ g ∈ l1, g.optional = true ∨ g.ignore = true
        ∨ bitOfName s g.name ∈ bits) →
      (f.default = none →
        fastFinalLoop s bits acc (l1 ++ f :: l2) = .error (.missingField f.name))
      ∧ (∀ d, f.default = some d →
        fastFinalLoop s bits acc (l1 ++ f :: l2)
          = .ok (acc ++ [(f.name, .defaulted d)])) := by
  intro l1
  induction l1 with
  | nil =>
    intro acc _
    constructor
    · intro hdef
      rw [List.nil_append, fastFinalLoop,
        if_pos (by simp [hfo, hfi]), if_neg hfu, hdef]
    · intro d hdef
      rw [List.nil_append, fastFinalLoop,
        if_pos (by simp [hfo, hfi]), if_neg hfu, hdef]
      exact fastFinalLoop_all_present s bits l2 _ hpost
  | cons g gs ih =>
    intro acc hpre
    have hg := hpre g (List.mem_cons_self _ _)
    have hpre2 : ∀ g2 ∈ gs, g2.optional = true ∨ g2.ignore = true
        ∨ bitOfName s g2.name ∈ bits :=
      fun g2 hg2 => hpre g2 (List.mem_cons_of_mem _ hg2)
    rw [List.cons_append]
    constructor
    · intro hdef
      rw [fastFinalLoop]
      by_cases hc : (!g.optional && !g.ignore) = true
      · simp only [Bool.and_eq_true, Bool.not_eq_true'] at hc
        have hmem : bitOfName s g.name ∈ bits := by
          rcases hg with h | h | h
          · rw [hc.1] at h
            cases h
          · rw [hc.2] at h
            cases h
          · exact h
        rw [if_pos (by simp [hc.1, hc.2]), if_pos hmem]
        exact (ih acc hpre2).1 hdef
      · rw [if_neg hc]
        exact (ih acc hpre2).1 hdef
    · intro d hdef
      rw [fastFinalLoop]
      by_cases hc : (!g.optional && !g.ignore) = true
      · simp only [Bool.and_eq_true, Bool.not_eq_true'] at hc
        have hmem : bitOfName s g.name ∈ bits := by
          rcases hg with h | h | h
          · rw [hc.1] at h
            cases h
          · rw [hc.2] at h
            cases h
          · exact h
        rw [if_pos (by simp [hc.1, hc.2]), if_pos hmem]
        exact (ih acc hpre2).2 d hdef
      · rw [if_neg hc]
        exact (ih acc hpre2).2 d hdef

/-- C7: deserializing an otherwise-valid document (well-formed elements, no
duplicates, every declared field present except one) with both generated
strategies: when the omitted field is required and has no default, decoding
fails with a missing-field error naming exactly that field; when it has a
default, decoding succeeds and the field takes its default value.  Stated for
structs without chained fields (whose trailing chained-type parse pass is
empty). -/
theorem c7_missing_required_field (s : GStruct) (doc : List DElem) (f : GField)
    (hnodupF : (s.fields.map GField.name).Nodup)
    (hnochain : ∀ g ∈ s.fields, g.chained = false ∧ g.chained_struct_field = false)
    (hf : f ∈ s.fields) (hfo : f.optional = false) (hfi : f.ignore = false)
    (hacc : ∀ el ∈ doc, elemAccepted s el = true)
    (hnodupD : (doc.map DElem.name).Nodup)
    (hnotin : f.name ∉ doc.map DElem.name)
    (hcover : ∀ g ∈ s.fields, g.name ≠ f.name → g.name ∈ doc.map DElem.name) :
    (f.default = none →
      slowRun s doc = .error (.missingField f.name)
      ∧ fastRun s doc = .error (.missingField f.name))
  ∧ (∀ d, f.default = some d →
      (∃ res, slowRun s doc = .ok res ∧ (f.name, GenValue.defaulted d) ∈ res)
      ∧ (∃ res, fastRun s doc = .ok res ∧ (f.name, GenValue.defaulted d) ∈ res)) := by
  have hdisp : dispatchFields s = s.fields := by
    rw [dispatchFields, List.filter_eq_self]
    intro g hg
    simp [(hnochain g hg).1]
  have hnonch : nonChainedFields s = s.fields := by
    rw [nonChainedFields, List.filter_eq_self]
    intro g hg
    simp [(hnochain g hg).1]
  obtain ⟨l1, l2, hsplit⟩ := List.append_of_mem hf
  have hnames : (l1.map GField.name).Nodup
      ∧ f.name ∉ l1.map GField.name ∧ f.name ∉ l2.map GField.name := by
    rw [hsplit] at hnodupF
    simp only [List.map_append, List.map_cons, List.nodup_append,
      List.nodup_cons] at hnodupF
    refine ⟨hnodupF.1, ?_, hnodupF.2.1.1⟩
    intro hmem
    exact hnodupF.2.2 hmem (List.mem_cons_self _ _)
  have hl1mem : ∀ g ∈ l1, g ∈ s.fields := by
    intro g hg
    rw [hsplit]
    exact List.mem_append_left _ hg
  have hl2mem : ∀ g ∈ l2, g ∈ s.fields := by
    intro g hg
    rw [hsplit]
    exact List.mem_append_right _ (List.mem_cons_of_mem _ hg)
  have hl1names : ∀ g ∈ l1, g.name ∈ doc.map DElem.name := by
    intro g hg
    refine hcover g (hl1mem g hg) ?_
    intro hne
    exact hnames.2.1 (hne ▸ List.mem_map.mpr ⟨g, hg, rfl⟩)
  have hl2names : ∀ g ∈ l2, g.name ∈ doc.map DElem.name := by
    intro g hg
    refine hcover g (hl2mem g hg) ?_
    intro hne
    exact hnames.2.2 (hne ▸ List.mem_map.mpr ⟨g, hg, rfl⟩)
  have hfchain : f.chained = false := (hnochain f hf).1
  obtain ⟨acc2, hloop⟩ := slowLoop_ok s doc [] [] hacc (by simpa using hnodupD)
  simp only [List.nil_append] at hloop
  have hrun : slowRun s doc
      = slowFinalLoop (doc.map DElem.name) acc2 (l1 ++ f :: l2) := by
    rw [slowRun, hloop]
    dsimp only
    rw [slowFinal.eq_def, hdisp, hsplit]
  have htgt := slowFinalLoop_target (doc.map DElem.name) f l2
    (fun g hg => Or.inr (Or.inr (Or.inr (hl2names g hg))))
    hfo hfi hfchain hnotin l1 acc2
    (fun g hg => Or.inr (Or.inr (Or.inr (hl1names g hg))))
  have hdocdecl : ∀ el ∈ doc, el.name ∈ (nonChainedFields s).map GField.name := by
    intro el hel
    have ha := hacc el hel
    rw [elemAccepted] at ha
    rcases hd : dispatchField s.fields el.name with _ | f2
    · rw [hd] at ha
      simp at ha
    · have hmem := List.mem_of_find?_eq_some hd
      have hp := List.find?_some hd
      rw [hnonch]
      exact List.mem_map.mpr ⟨f2, List.mem_of_mem_filter hmem, by simpa using hp⟩
  obtain ⟨facc2, hfloop⟩ := fastLoop_ok s doc [] [] hacc hdocdecl
    (by simp) (by simpa using hnodupD)
  simp only [List.map_nil, List.nil_append] at hfloop
  have hfdecl : f.name ∈ (nonChainedFields s).map GField.name := by
    rw [hnonch]
    exact List.mem_map.mpr ⟨f, hf, rfl⟩
  have hfbit : bitOfName s f.name
      ∉ (doc.map DElem.name).map (bitOfName s) := by
    intro hmem
    rcases List.mem_map.mp hmem with ⟨m, hm, hbeq⟩
    have hmdecl : m ∈ (nonChainedFields s).map GField.name := by
      rcases List.mem_map.mp hm with ⟨el, hel, hnm⟩
      rw [← hnm]
      exact hdocdecl el hel
    have : m = f.name := bitOfName_inj s m f.name hmdecl hfdecl hbeq
    subst this
    exact hnotin hm
  have hguard : ¬ ((nonChainedFields s).all
      (fun g => decide (bitOfName s g.name
        ∈ (doc.map DElem.name).map (bitOfName s))) = true) := by
    rw [List.all_eq_true]
    push_neg
    refine ⟨f, by rw [hnonch]; exact hf, by simpa using hfbit⟩
  have hfrun : fastRun s doc
      = fastFinalLoop s ((doc.map DElem.name).map (bitOfName s)) facc2
          (l1 ++ f :: l2) := by
    rw [fastRun, hfloop]
    dsimp only
    rw [fastFinal.eq_def, if_neg hguard, hdisp, hsplit]
  have hbits1 : ∀ g ∈ l1, g.optional = true ∨ g.ignore = true
      ∨ bitOfName s g.name ∈ (doc.map DElem.name).map (bitOfName s) :=
    fun g hg => Or.inr (Or.inr (List.mem_map.mpr ⟨g.name, hl1names g hg, rfl⟩))
  have hbits2 : ∀ g ∈ l2, g.optional = true ∨ g.ignore = true
      ∨ bitOfName s g.name ∈ (doc.map DElem.name).map (bitOfName s) :=
    fun g hg => Or.inr (Or.inr (List.mem_map.mpr ⟨g.name, hl2names g hg, rfl⟩))
  have hftgt := fastFinalLoop_target s ((doc.map DElem.name).map (bitOfName s))
    f l2 hbits2 hfo hfi hfbit l1 facc2 hbits1
  constructor
  · intro hdef
    exact ⟨by rw [hrun]; exact htgt.1 hdef, by rw [hfrun]; exact hftgt.1 hdef⟩
  · intro d hdef
    constructor
    · refine ⟨acc2 ++ [(f.name, .defaulted d)], ?_, ?_⟩
      · rw [hrun]
        exact htgt.2 d hdef
      · exact List.mem_append_right _ (List.mem_singleton.mpr rfl)
    · refine ⟨facc2 ++ [(f.name, .defaulted d)], ?_, ?_⟩
      · rw [hfrun]
        exact hftgt.2 d hdef
      · exact List.mem_append_right _ (List.mem_singleton.mpr rfl)

/-- C7 witness: a two-field struct with required field `a` (and field `b`
supplied): omitting `a` fails with the missing-field error naming `a` under
both strategies; with a default on `a` the decode succeeds and `a` takes the
default. -/
theorem c7_missing_required_field_witness :
    (slowRun ⟨"S", true, [⟨"a", ["int"], false, false, none, false, false,
          false, false, false⟩,
        ⟨"b", ["int"], false, false, none, false, false, false, false, false⟩]⟩
        [⟨"b", "int", 2, []⟩]
      = .error (.missingField "a")
    ∧ fastRun ⟨"S", true, [⟨"a", ["int"], false, false, none, false, false,
          false, false, false⟩,
        ⟨"b", ["int"], false, false, none, false, false, false, false, false⟩]⟩
        [⟨"b", "int", 2, []⟩]
      = .error (.missingField "a"))
  ∧ ((∃ res, slowRun ⟨"S", true, [⟨"a", ["int"], false, false, some "42",
          false, false, false, false, false⟩,
        ⟨"b", ["int"], false, false, none, false, false, false, false, false⟩]⟩
        [⟨"b", "int", 2, []⟩]
      = .ok res ∧ ("a", GenValue.defaulted "42") ∈ res)
    ∧ (∃ res, fastRun ⟨"S", true, [⟨"a", ["int"], false, false, some "42",
          false, false, false, false, false⟩,
        ⟨"b", ["int"], false, false, none, false, false, false, false, false⟩]⟩
        [⟨"b", "int", 2, []⟩]
      = .ok res ∧ ("a", GenValue.defaulted "42") ∈ res)) := by
  constructor
  · exact (c7_missing_required_field _ _
      ⟨"a", ["int"], false, false, none, false, false, false, false, false⟩
      (by decide) (by decide) (by decide) rfl rfl (by decide) (by decide)
      (by decide) (by decide)).1 rfl
  · exact (c7_missing_required_field _ _
      ⟨"a", ["int"], false, false, some "42", false, false, false, false, false⟩
      (by decide) (by decide) (by decide) rfl rfl (by decide) (by decide)
      (by decide) (by decide)).2 "42" rfl

/-! ## C9 (unknown fields, generic arguments, document sequences) -/

/-- C9: in the deserializer generated for a strict Command, a body field name
matching no declared field throws the unknown-field error exactly when it is
not a generic argument — generic arguments are silently tolerated, the loop
simply continuing — whereas for a strict non-command struct an unmatched name
always throws, and in the command's document-sequence loop an unmatched
sequence name always throws regardless of any generic-argument notion (the
loop takes no such predicate). -/
theorem c9_strict_unknown_field_handling (s : GStruct)
    (isGeneric : String → Bool) (bits : List Nat)
    (acc : List (String × GenValue)) (el : DElem) (rest : List DElem)
    (sq : DSeqEntry) (rseq : List DSeqEntry) (hstrict : s.strict = true) :
    (dispatchField s.fields el.name = none → isGeneric el.name = false →
      cmdFieldsLoop s isGeneric true bits acc (el :: rest)
        = .error (.unknownField el.name))
  ∧ (dispatchField s.fields el.name = none → isGeneric el.name = true →
      cmdFieldsLoop s isGeneric true bits acc (el :: rest)
        = cmdFieldsLoop s isGeneric true bits acc rest)
  ∧ (dispatchField s.fields el.name = none →
      fastLoop s bits acc (el :: rest) = .error (.unknownField el.name))
  ∧ ((s.fields.filter (fun f => f.supports_doc_sequence)).find?
        (fun f => f.name == sq.name) = none →
      docSeqLoop s bits acc (sq :: rseq) = .error (.unknownField sq.name)) := by
  refine ⟨?_, ?_, ?_, ?_⟩
  · intro h1 h2
    rw [cmdFieldsLoop]
    simp [h1, h2, hstrict]
  · intro h1 h2
    rw [cmdFieldsLoop]
    simp [h1, h2, hstrict]
  · intro h1
    rw [fastLoop]
    simp [h1, hstrict]
  · intro h1
    rw [docSeqLoop]
    simp [h1, hstrict]

/-- C9 witness: on a strict one-field command, the unknown body name `junk`
throws, the generic name `$db` is tolerated, the same name on a plain strict
struct throws, and the unknown sequence name `junk` throws. -/
theorem c9_strict_unknown_field_handling_witness :
    cmdFieldsLoop ⟨"C", true, [⟨"a", ["int"], false, false, none, false,
        false, false, false, false⟩]⟩
      (fun n => n == "$db") true [] [] [⟨"junk", "int", 1, []⟩]
      = .error (.unknownField "junk")
  ∧ cmdFieldsLoop ⟨"C", true, [⟨"a", ["int"], false, false, none, false,
        false, false, false, false⟩]⟩
      (fun n => n == "$db") true [] [] [⟨"$db", "string", 1, []⟩]
      = .ok ([], [])
  ∧ fastLoop ⟨"C", true, [⟨"a", ["int"], false, false, none, false,
        false, false, false, false⟩]⟩
      [] [] [⟨"junk", "int", 1, []⟩]
      = .error (.unknownField "junk")
  ∧ docSeqLoop ⟨"C", true, [⟨"a", ["int"], false, false, none, false,
        false, false, false, false⟩]⟩
      [] [] [⟨"junk", 1⟩]
      = .error (.unknownField "junk") := by
  refine ⟨?_, ?_, ?_, ?_⟩
  · exact (c9_strict_unknown_field_handling _ _ [] [] ⟨"junk", "int", 1, []⟩
      [] ⟨"junk", 1⟩ [] rfl).1 (by decide) rfl
  · rw [(c9_strict_unknown_field_handling _ _ [] [] ⟨"$db", "string", 1, []⟩
      [] ⟨"junk", 1⟩ [] rfl).2.1 (by decide) rfl]
    rw [cmdFieldsLoop]
  · exact (c9_strict_unknown_field_handling _ (fun _ => false) [] []
      ⟨"junk", "int", 1, []⟩ [] ⟨"junk", 1⟩ [] rfl).2.2.1 (by decide)
  · exact (c9_strict_unknown_field_handling _ (fun _ => false) [] []
      ⟨"junk", "int", 1, []⟩ [] ⟨"junk", 1⟩ [] rfl).2.2.2 (by decide)

/-! ## C10 (serializer required-field invariant) -/

/-- C10: the generated serializer begins with an `invariant` over the
`_has...` flags of exactly the required serializer fields (not ignored, not
optional, no default, not chained); serializing an instance with any such
field unset fails the invariant, and — the output living on the success side
of the result — no document output is produced. -/
theorem c10_serializer_required_invariant (s : GStruct) (hasSet : List String)
    (isOpMsg : Bool) (f : GField) (hf : f ∈ s.fields)
    (hreq : is_required_serializer_field f = true)
    (hunset : f.name ∉ hasSet) :
    gen_serializer_methods_common s hasSet isOpMsg = .error .invariantFailure := by
  have hfmem : f ∈ s.fields.filter is_required_serializer_field :=
    List.mem_filter.mpr ⟨hf, hreq⟩
  unfold gen_serializer_methods_common
  rw [if_neg, if_neg]
  · simp only [List.all_eq_true, not_forall]
    exact ⟨f, hfmem, by simpa using hunset⟩
  · simp only [List.isEmpty_iff]
    exact List.ne_nil_of_mem hfmem

/-- C10 witness: a struct whose single field is required and whose instance
has no `_has` flag set trips the invariant. -/
theorem c10_serializer_required_invariant_witness :
    gen_serializer_methods_common ⟨"S", false, [⟨"a", ["int"], false, false,
        none, false, false, false, false, false⟩]⟩ [] false
      = .error .invariantFailure :=
  c10_serializer_required_invariant _ [] false
    ⟨"a", ["int"], false, false, none, false, false, false, false, false⟩
    (by decide) (by decide) (by decide)
